import Mathlib

/-!
Verification of the transaction-lifecycle and execution-trace subsystem of
the `ape` framework, as a shallow embedding in Lean.

The embedding follows the Python source:
  * src/ape/api/transactions.py   (CallTraceParser, ReceiptAPI)
  * src/ape/api/providers/provider.py (ProviderAPI.prepare_transaction)
  * src/ape/types/trace.py        (CallTreeNode, gas report creation)
  * src/ape/utils/trace.py        (parse_gas_table)

External collaborators (the network provider, the chain manager's
contract-resolution cache, the eth-abi decoder and eth-utils helpers) are
modelled as explicit environment records of total functions, mirroring the
way the source treats them as injected capabilities.  Python dictionaries
are modelled as insertion-ordered association lists whose insert overwrites
the value of an existing key in place.
-/

namespace Ape

/-- Python falsy-or for optional strings: the source idiom
`x or default` where `x` is `None` or a string (empty strings are falsy). -/
def pyOrStr (v : Option String) (d : String) : String :=
  match v with
  | some s => if s = "" then d else s
  | none => d

/-- Value of one hexadecimal digit character, `none` when not a hex digit. -/
def hexDigit? (c : Char) : Option Nat :=
  if c.isDigit then some (c.toNat - 48)
  else if 97 ≤ c.toNat ∧ c.toNat ≤ 102 then some (c.toNat - 87)
  else if 65 ≤ c.toNat ∧ c.toNat ≤ 70 then some (c.toNat - 55)
  else none

/-- Accumulating hex parser over a digit list. -/
def hexToNatCore : List Char → Nat → Option Nat
  | [], acc => some acc
  | c :: cs, acc =>
    match hexDigit? c with
    | some d => hexToNatCore cs (acc * 16 + d)
    | none => none

/-- Model of CPython `int(s, 16)` restricted to the shapes the source feeds
it (an optionally `0x`-prefixed hex string with at least one digit);
`none` models the `ValueError` raised on anything else. -/
def hexToNat? (s : String) : Option Nat :=
  let cs := s.data
  let cs := if cs.take 2 = ['0', 'x'] ∨ cs.take 2 = ['0', 'X'] then cs.drop 2 else cs
  if cs = [] then none else hexToNatCore cs 0

/-- Lower-case hex digit character for a value below 16. -/
def hexChar (n : Nat) : Char :=
  if n < 10 then Char.ofNat (48 + n) else Char.ofNat (87 + n)

/-- Hex rendering of one byte, two lower-case digits. -/
def byteHex (b : Nat) : List Char :=
  [hexChar (b / 16 % 16), hexChar (b % 16)]

/-- Model of `HexBytes(bs).hex()`: `0x`-prefixed lower-case hex string. -/
def bytesToHex (bs : List Nat) : String :=
  ⟨'0' :: 'x' :: (bs.map byteHex).flatten⟩

/-- Model of `eth_utils.is_hex_address`: a string that is valid hex of
exactly 20 bytes (40 hex digits after an optional `0x` prefix). -/
def isHexAddress (s : String) : Bool :=
  let cs := s.data
  let cs := if cs.take 2 = ['0', 'x'] ∨ cs.take 2 = ['0', 'X'] then cs.drop 2 else cs
  cs.length = 40 && cs.all (fun c => (hexDigit? c).isSome)

/-- Whitespace characters stripped by Python `str.strip()` (the ASCII
subset; the source only ever strips contract names). -/
def isPyWS (c : Char) : Bool :=
  c == ' ' || c == '\t' || c == '\n' || c == '\r' || c == '\x0b' || c == '\x0c'

/-- Model of Python `str.strip()`: drop leading and trailing whitespace. -/
def pyStrip (s : String) : String :=
  ⟨((s.data.dropWhile isPyWS).reverse.dropWhile isPyWS).reverse⟩

/-- Python-dict insertion over an insertion-ordered association list:
assigning to an existing key overwrites its value in place, a new key is
appended at the end. -/
def dinsert (k : String) (v : α) : List (String × α) → List (String × α)
  | [] => [(k, v)]
  | (k0, v0) :: rest => if k0 = k then (k0, v) :: rest else (k0, v0) :: dinsert k v rest

/-- Key lookup in an association list modelling a Python dict. -/
def dget? (k : String) (l : List (String × α)) : Option α :=
  (l.find? (fun p => p.1 == k)).map (fun p => p.2)

/-- Inserting a fresh key appends it at the end of the dict. -/
theorem dinsert_not_mem (k : String) (v : α) (l : List (String × α))
    (h : k ∉ l.map Prod.fst) : dinsert k v l = l ++ [(k, v)] := by
  induction l with
  | nil => rfl
  | cons p rest ih =>
    obtain ⟨k0, v0⟩ := p
    simp only [List.map_cons, List.mem_cons] at h
    push_neg at h
    have hne : ¬(k0 = k) := fun he => h.1 he.symm
    simp only [dinsert, if_neg hne, List.cons_append]
    rw [ih h.2]

/-- Runtime values flowing through the decoders and the value formatter:
byte strings, text strings, integers, booleans, lists, tuples, structured
records (`ape.utils.Struct`) and Python `None`. -/
inductive Value where
  | vBytes (bs : List Nat)
  | vStr (s : String)
  | vInt (n : Int)
  | vBool (b : Bool)
  | vList (vs : List Value)
  | vTuple (vs : List Value)
  | vStruct (fields : List (String × Value))
  | vDict (fields : List (String × Value))
  | vNone
deriving Repr

section CallTreeRendering

/-- Display tree as produced by `rich.tree.Tree`: a label plus ordered
sub-trees added with `Tree.add`. -/
inductive RTree where
  | node (label : String) (children : List RTree)
deriving Repr

/-- Call-tree node handed to `CallTraceParser.parse_as_tree`
(the `evm_trace.CallTreeNode` shape: callee address, calldata, returndata,
gas data, transferred value, failed flag and sub-calls in execution
order). -/
inductive EvmCall where
  | mk (address : String) (calldata : List Nat) (returndata : List Nat)
       (gasCost : Option Int) (value : Int) (failed : Bool)
       (calls : List EvmCall)
deriving Repr

/-- Callee address of a call node. -/
def EvmCall.address : EvmCall → String
  | .mk a _ _ _ _ _ _ => a

/-- Sub-calls of a call node, in execution order. -/
def EvmCall.calls : EvmCall → List EvmCall
  | .mk _ _ _ _ _ _ cs => cs

/-- External collaborators of `CallTraceParser.parse_as_tree`:
`ecosystem.decode_address` (checksummed form of an address) and the whole
non-precompile signature computation (contract-type resolution through the
chain manager, selector lookup, calldata/returndata decoding and the
`_MethodTraceSignature` string build), which touches only the node itself,
never its sub-calls. -/
structure ParseEnv where
  decodeAddress : String → String
  renderSignature : EvmCall → String

mutual

/-- Embedding of `CallTraceParser.parse_as_tree`
(src/ape/api/transactions.py lines 356-444).  The precompile branch is
translated verbatim: when the checksummed address has integer value in
[1, 9] the frame itself is not rendered; with exactly one parsed sub-tree
that sub-tree is returned unchanged, otherwise an intermediary node
labelled with the decimal address id collects the parsed sub-trees.  All
other frames render their signature and attach their parsed sub-calls. -/
def parse_as_tree (env : ParseEnv) : EvmCall → RTree
  | .mk addr cd rd gc val fl calls =>
    let address := env.decodeAddress addr
    let addressInt := (hexToNat? address).getD 0
    if 1 ≤ addressInt ∧ addressInt ≤ 9 then
      match parseSubTrees env calls with
      | [t] => t
      | subTrees => RTree.node (toString addressInt) subTrees
    else
      RTree.node (env.renderSignature (.mk addr cd rd gc val fl calls))
        (parseSubTrees env calls)

/-- The recursion of `parse_as_tree` over a node's sub-calls, in order. -/
def parseSubTrees (env : ParseEnv) : List EvmCall → List RTree
  | [] => []
  | c :: cs => parse_as_tree env c :: parseSubTrees env cs

end

/-- The sub-call recursion is an ordinary map. -/
theorem parseSubTrees_eq_map (env : ParseEnv) (l : List EvmCall) :
    parseSubTrees env l = l.map (parse_as_tree env) := by
  induction l with
  | nil => rfl
  | cons c cs ih => simp [parseSubTrees, ih]

/-- Unfolding helper for `parse_as_tree` with the sub-call recursion
written as a map. -/
theorem parse_as_tree_eq (env : ParseEnv) (addr : String) (cd rd : List Nat)
    (gc : Option Int) (val : Int) (fl : Bool) (calls : List EvmCall) :
    parse_as_tree env (.mk addr cd rd gc val fl calls) =
      (let address := env.decodeAddress addr
       let addressInt := (hexToNat? address).getD 0
       if 1 ≤ addressInt ∧ addressInt ≤ 9 then
         match calls.map (parse_as_tree env) with
         | [t] => t
         | subTrees => RTree.node (toString addressInt) subTrees
       else
         RTree.node (env.renderSignature (.mk addr cd rd gc val fl calls))
           (calls.map (parse_as_tree env))) := by
  rw [parse_as_tree]
  simp only [parseSubTrees_eq_map]

/-- Concrete rendering environment for witnesses: addresses are already
checksummed (identity) and every non-precompile frame renders a fixed
signature label. -/
def envW : ParseEnv :=
  { decodeAddress := fun a => a, renderSignature := fun _ => "sig" }

/-- Witness leaf call at an ordinary (non-precompile) address. -/
def childA : EvmCall := .mk "0x00000000000000000000000000000000000000aa" [1, 2] [] (some 100) 0 false []

/-- Second witness leaf call. -/
def childB : EvmCall := .mk "0x00000000000000000000000000000000000000bb" [3] [] (some 7) 0 false []

/-- Witness precompile call (address value 4) with exactly one sub-call. -/
def preOne : EvmCall := .mk "0x04" [] [] none 0 false [childA]

/-- Witness precompile call (address value 4) with two sub-calls. -/
def preTwo : EvmCall := .mk "0x04" [] [] none 0 false [childA, childB]

/-- Witness precompile call (address value 4) with no sub-calls. -/
def preZero : EvmCall := .mk "0x04" [] [] none 0 false []

/-- C1: for every call-tree node whose resolved (checksummed) address has
integer value in [1, 9], `parse_as_tree` returns, when the node has
exactly one sub-call, that sub-call's rendered tree unchanged; and when it
has more than one sub-call, a single intermediary node labelled with the
decimal address id carrying the rendered sub-calls in their original
order. -/
theorem precompile_collapse (env : ParseEnv) (call : EvmCall) (n : Nat)
    (haddr : hexToNat? (env.decodeAddress call.address) = some n)
    (h1 : 1 ≤ n) (h9 : n ≤ 9) :
    (∀ c, call.calls = [c] → parse_as_tree env call = parse_as_tree env c) ∧
    (1 < call.calls.length →
      parse_as_tree env call =
        RTree.node (toString n) (call.calls.map (parse_as_tree env))) := by
  obtain ⟨addr, cd, rd, gc, val, fl, calls⟩ := call
  simp only [EvmCall.address] at haddr
  simp only [EvmCall.calls]
  rw [parse_as_tree_eq]
  simp only [haddr, Option.getD_some, if_pos (And.intro h1 h9)]
  constructor
  · intro c hc
    subst hc
    simp
  · intro hlen
    match calls, hlen with
    | c1 :: c2 :: rest, _ => simp

/-- Witness for C1 at the concrete precompile address `0x04`: one sub-call
collapses to the sub-call's tree; two sub-calls produce the labelled
intermediary node. -/
theorem precompile_collapse_witness :
    parse_as_tree envW preOne = parse_as_tree envW childA ∧
    parse_as_tree envW preTwo =
      RTree.node "4" [parse_as_tree envW childA, parse_as_tree envW childB] := by
  constructor
  · exact (precompile_collapse envW preOne 4 (by decide) (by decide) (by decide)).1
      childA rfl
  · exact (precompile_collapse envW preTwo 4 (by decide) (by decide) (by decide)).2
      (by decide)

/-- C10: a call-tree node whose resolved address has integer value in the
precompile range [1, 9] and which has no sub-calls parses to an
intermediary node labelled with the decimal address id and carrying no
sub-trees — the frame itself is not rendered, but the node is not omitted
from the output. -/
theorem precompile_childless (env : ParseEnv) (call : EvmCall) (n : Nat)
    (haddr : hexToNat? (env.decodeAddress call.address) = some n)
    (h1 : 1 ≤ n) (h9 : n ≤ 9) (hnil : call.calls = []) :
    parse_as_tree env call = RTree.node (toString n) [] := by
  obtain ⟨addr, cd, rd, gc, val, fl, calls⟩ := call
  simp only [EvmCall.address] at haddr
  simp only [EvmCall.calls] at hnil
  subst hnil
  rw [parse_as_tree_eq]
  simp only [haddr, Option.getD_some, if_pos (And.intro h1 h9), List.map_nil]

/-- Witness for C10 at the concrete precompile address `0x04` with no
sub-calls. -/
theorem precompile_childless_witness :
    parse_as_tree envW preZero = RTree.node "4" [] :=
  precompile_childless envW preZero 4 (by decide) (by decide) (by decide) rfl

end CallTreeRendering

section AbiDecoder

/-- One declared input of a method ABI: an optional parameter name and its
canonical ABI type string (`ethpm_types.abi.MethodABI.inputs` entries). -/
structure AbiInput where
  name : Option String
  canonicalType : String
deriving Repr, DecidableEq

/-- A method ABI: optional method name and declared inputs in order. -/
structure MethodAbi where
  name : Option String
  inputs : List AbiInput
deriving Repr, DecidableEq

/-- External collaborators of `CallTraceParser.decode_calldata`:
`eth_abi.decode_abi` over the canonical input types (the `error` outcome
models the exception classes the source catches around it — the
`ape.exceptions.DecodingError` family and
`eth_abi.exceptions.InsufficientDataBytes`, raised on calldata shorter
than the types require or otherwise undecodable), and the per-value
pipeline `decode_value(ecosystem.decode_primitive_value(v, parse_type(t)))`
applied to each successfully decoded raw value. -/
structure AbiEnv where
  decodeAbi : List String → List Nat → Except Unit (List Value)
  decodePrimitive : Value → String → Value

/-- The argument-dict build loop of `decode_calldata`: for each declared
input paired with its value, the key is the input's name or, when the name
is falsy (absent or empty), the decimal running index. -/
def buildArguments : List AbiInput → List Value → Nat → List (String × Value) → List (String × Value)
  | i :: is, v :: vs, index, acc =>
    buildArguments is vs (index + 1) (dinsert (pyOrStr i.name (toString index)) v acc)
  | _, _, _, acc => acc

/-- Embedding of `CallTraceParser.decode_calldata`
(src/ape/api/transactions.py lines 446-467): decode the raw calldata
against the canonical input types; on a caught decode failure substitute
the placeholder string for every declared input; then key the values by
input name or positional index. -/
def decode_calldata (env : AbiEnv) (method : MethodAbi) (rawData : List Nat) :
    List (String × Value) :=
  buildArguments method.inputs
    (match env.decodeAbi (method.inputs.map (fun i => i.canonicalType)) rawData with
     | .ok rawInputValues =>
       (rawInputValues.zip (method.inputs.map (fun i => i.canonicalType))).map
         (fun p => env.decodePrimitive p.1 p.2)
     | .error _ =>
       (method.inputs.map (fun i => i.canonicalType)).map (fun _ => Value.vStr "<?>"))
    0 []

/-- The keys `decode_calldata` produces for a list of declared inputs,
starting from a running index. -/
def keysFrom : List AbiInput → Nat → List String
  | [], _ => []
  | i :: is, k => pyOrStr i.name (toString k) :: keysFrom is (k + 1)

/-- The keyed pairs `decode_calldata` produces when no key collides. -/
def argPairs : List AbiInput → List Value → Nat → List (String × Value)
  | i :: is, v :: vs, k => (pyOrStr i.name (toString k), v) :: argPairs is vs (k + 1)
  | _, _, _ => []

/-- Keys of the keyed pairs. -/
theorem argPairs_map_fst : ∀ (is : List AbiInput) (vs : List Value) (k : Nat),
    is.length = vs.length → (argPairs is vs k).map Prod.fst = keysFrom is k
  | [], [], _, _ => rfl
  | i :: is, v :: vs, k, h => by
    simp only [argPairs, keysFrom, List.map_cons, List.cons.injEq, true_and]
    exact argPairs_map_fst is vs (k + 1) (by simpa using h)

/-- Values of the keyed pairs. -/
theorem argPairs_map_snd : ∀ (is : List AbiInput) (vs : List Value) (k : Nat),
    is.length = vs.length → (argPairs is vs k).map Prod.snd = vs
  | [], [], _, _ => rfl
  | i :: is, v :: vs, k, h => by
    simp only [argPairs, List.map_cons, List.cons.injEq, true_and]
    exact argPairs_map_snd is vs (k + 1) (by simpa using h)

/-- A key list has one key per declared input. -/
theorem keysFrom_length : ∀ (is : List AbiInput) (k : Nat),
    (keysFrom is k).length = is.length
  | [], _ => rfl
  | _ :: is, k => by simp [keysFrom, keysFrom_length is (k + 1)]

/-- A keyed-pair list has one pair per declared input. -/
theorem argPairs_length (is : List AbiInput) (vs : List Value) (k : Nat)
    (h : is.length = vs.length) : (argPairs is vs k).length = is.length := by
  have h1 := argPairs_map_fst is vs k h
  have h2 : (argPairs is vs k).length = (keysFrom is k).length := by
    rw [← h1]; simp
  rw [h2, keysFrom_length]

/-- The build loop appends the keyed pairs when no key collides with the
accumulator or with another key. -/
theorem buildArguments_eq : ∀ (is : List AbiInput) (vs : List Value) (k : Nat)
    (acc : List (String × Value)),
    is.length = vs.length →
    (acc.map Prod.fst ++ keysFrom is k).Nodup →
    buildArguments is vs k acc = acc ++ argPairs is vs k
  | [], [], _, acc, _, _ => by simp [buildArguments, argPairs]
  | i :: is, v :: vs, k, acc, hlen, hnd => by
    have hdisj := (List.nodup_append.mp hnd).2.2
    have hkey : pyOrStr i.name (toString k) ∉ acc.map Prod.fst := by
      intro hmem
      exact hdisj hmem (by simp [keysFrom])
    simp only [buildArguments, argPairs]
    rw [dinsert_not_mem _ _ _ hkey]
    rw [buildArguments_eq is vs (k + 1) (acc ++ [(pyOrStr i.name (toString k), v)])
      (by simpa using hlen)
      (by
        simp only [List.map_append, List.map_cons, List.map_nil]
        have : acc.map Prod.fst ++ [pyOrStr i.name (toString k)] ++ keysFrom is (k + 1) =
            acc.map Prod.fst ++ (pyOrStr i.name (toString k) :: keysFrom is (k + 1)) := by
          simp
        rw [this]
        simpa [keysFrom] using hnd)]
    simp

/-- C2: for every method ABI whose computed keys (input name, or positional
index when unnamed) are pairwise distinct, `decode_calldata` never raises
and returns exactly one entry per declared input: when the external abi
decode succeeds with one raw value per declared input, the entries are
keyed by name-or-index and carry the decoded values in order; when the
decode fails (calldata shorter than required or malformed, the caught
error kinds), every declared input is keyed the same way and carries the
placeholder string. -/
theorem decode_calldata_spec (env : AbiEnv) (method : MethodAbi) (raw : List Nat)
    (hnd : (keysFrom method.inputs 0).Nodup) :
    (∀ vals, env.decodeAbi (method.inputs.map (fun i => i.canonicalType)) raw = .ok vals →
      vals.length = method.inputs.length →
      (decode_calldata env method raw).map Prod.fst = keysFrom method.inputs 0 ∧
      (decode_calldata env method raw).map Prod.snd =
        (vals.zip (method.inputs.map (fun i => i.canonicalType))).map
          (fun p => env.decodePrimitive p.1 p.2) ∧
      (decode_calldata env method raw).length = method.inputs.length) ∧
    (∀ e : Unit, env.decodeAbi (method.inputs.map (fun i => i.canonicalType)) raw = .error e →
      (decode_calldata env method raw).map Prod.fst = keysFrom method.inputs 0 ∧
      (decode_calldata env method raw).map Prod.snd =
        method.inputs.map (fun _ => Value.vStr "<?>")) := by
  constructor
  · intro vals hok hlen
    have hvlen : method.inputs.length =
        ((vals.zip (method.inputs.map (fun i => i.canonicalType))).map
          (fun p => env.decodePrimitive p.1 p.2)).length := by
      simp [List.length_zip, hlen]
    have hbody : decode_calldata env method raw =
        argPairs method.inputs
          ((vals.zip (method.inputs.map (fun i => i.canonicalType))).map
            (fun p => env.decodePrimitive p.1 p.2)) 0 := by
      simp only [decode_calldata, hok]
      exact buildArguments_eq _ _ _ _ hvlen (by simpa using hnd)
    refine ⟨?_, ?_, ?_⟩
    · rw [hbody]; exact argPairs_map_fst _ _ _ hvlen
    · rw [hbody]; exact argPairs_map_snd _ _ _ hvlen
    · rw [hbody]; exact argPairs_length _ _ _ hvlen
  · intro e herr
    have hvlen : method.inputs.length =
        ((method.inputs.map (fun i => i.canonicalType)).map
          (fun _ => Value.vStr "<?>")).length := by simp
    have hbody : decode_calldata env method raw =
        argPairs method.inputs
          ((method.inputs.map (fun i => i.canonicalType)).map
            (fun _ => Value.vStr "<?>")) 0 := by
      simp only [decode_calldata, herr]
      exact buildArguments_eq _ _ _ _ hvlen (by simpa using hnd)
    constructor
    · rw [hbody]; exact argPairs_map_fst _ _ _ hvlen
    · rw [hbody]
      rw [argPairs_map_snd _ _ _ hvlen, List.map_map]
      rfl

/-- Concrete decode environment for the C2 witness: the abi decoder fails
when the calldata is shorter than four bytes and otherwise yields the
integer 1 for every declared type; the per-value pipeline is the
identity. -/
def abiEnvW : AbiEnv :=
  { decodeAbi := fun types raw =>
      if raw.length < 4 then .error () else .ok (types.map (fun _ => Value.vInt 1)),
    decodePrimitive := fun v _ => v }

/-- Witness method ABI: a named input followed by an unnamed one. -/
def methodW : MethodAbi :=
  { name := some "transfer",
    inputs := [{ name := some "amount", canonicalType := "uint256" },
               { name := none, canonicalType := "address" }] }

/-- Witness for C2: on well-formed calldata the entries are keyed
`amount` and `1` (the positional index of the unnamed input) with one
entry per input; on short calldata every entry carries the placeholder. -/
theorem decode_calldata_spec_witness :
    ((decode_calldata abiEnvW methodW [0, 0, 0, 0]).map Prod.fst = ["amount", "1"] ∧
      (decode_calldata abiEnvW methodW [0, 0, 0, 0]).map Prod.snd =
        [Value.vInt 1, Value.vInt 1]) ∧
    (decode_calldata abiEnvW methodW []).map Prod.snd =
      [Value.vStr "<?>", Value.vStr "<?>"] := by
  refine ⟨⟨?_, ?_⟩, ?_⟩
  · exact ((decode_calldata_spec abiEnvW methodW [0, 0, 0, 0] (by decide)).1
      [Value.vInt 1, Value.vInt 1] rfl rfl).1
  · exact ((decode_calldata_spec abiEnvW methodW [0, 0, 0, 0] (by decide)).1
      [Value.vInt 1, Value.vInt 1] rfl rfl).2.1
  · exact ((decode_calldata_spec abiEnvW methodW [] (by decide)).2 () rfl).2

end AbiDecoder

section GlobMatching

/-- Body scan for a glob bracket set: find the closing bracket, returning
the set body and the remaining pattern. -/
def findClose : List Char → Option (List Char × List Char)
  | [] => none
  | ']' :: rest => some ([], rest)
  | c :: cs =>
    match findClose cs with
    | some (b, r) => some (c :: b, r)
    | none => none

/-- Split a glob bracket set right after its opening bracket, following
`fnmatch.translate`: a leading exclamation mark negates; a closing bracket
placed first is a literal member; with no closing bracket at all the set
fails to parse (the opening bracket is then literal). -/
def splitSet (cs : List Char) : Option (Bool × List Char × List Char) :=
  let negp := match cs with
    | '!' :: t => (true, t)
    | _ => (false, cs)
  match negp.2 with
  | ']' :: t =>
    match findClose t with
    | some (body, rest) => some (negp.1, ']' :: body, rest)
    | none => none
  | other =>
    match findClose other with
    | some (body, rest) => some (negp.1, body, rest)
    | none => none

/-- One compiled token of a glob pattern. -/
inductive GTok where
  | star
  | anyOne
  | lit (c : Char)
  | set (neg : Bool) (body : List Char)
deriving Repr, DecidableEq

/-- Fuelled glob lexer; the fuel only bounds the recursion depth and never
runs out when it starts at the pattern length, since every step consumes
at least one pattern character. -/
def lexGlobF : Nat → List Char → List GTok
  | 0, _ => []
  | _ + 1, [] => []
  | fuel + 1, '*' :: ps => .star :: lexGlobF fuel ps
  | fuel + 1, '?' :: ps => .anyOne :: lexGlobF fuel ps
  | fuel + 1, '[' :: ps =>
    match splitSet ps with
    | some (neg, body, rest) => .set neg body :: lexGlobF fuel rest
    | none => .lit '[' :: lexGlobF fuel ps
  | fuel + 1, c :: ps => .lit c :: lexGlobF fuel ps

/-- Compile a glob pattern into tokens, following `fnmatch.translate`:
a star matches any sequence, a question mark any one character, a bracket
set one character from the set (negated sets via a leading exclamation
mark), an unterminated opening bracket is a literal character. -/
def lexGlob (cs : List Char) : List GTok :=
  lexGlobF cs.length cs

/-- Membership of a character in a bracket-set body with ranges. -/
def setMatches : List Char → Char → Bool
  | a :: '-' :: b :: rest, c =>
    (a.toNat ≤ c.toNat && c.toNat ≤ b.toNat) || setMatches rest c
  | a :: rest, c => a == c || setMatches rest c
  | [], _ => false

/-- Token matcher for compiled glob patterns: a star token matches an
arbitrary prefix, tried as every possible suffix split of the string. -/
def gmatch : List GTok → List Char → Bool
  | [], s => s.isEmpty
  | .star :: ps, s => (List.range (s.length + 1)).any (fun k => gmatch ps (s.drop k))
  | .anyOne :: ps, s =>
    match s with
    | _ :: cs => gmatch ps cs
    | [] => false
  | .lit a :: ps, s =>
    match s with
    | c :: cs => a == c && gmatch ps cs
    | [] => false
  | .set neg body :: ps, s =>
    match s with
    | c :: cs => (setMatches body c != neg) && gmatch ps cs
    | [] => false

/-- Model of `fnmatch.fnmatch(name, pattern)` on a POSIX system (where
`os.path.normcase` is the identity). -/
def fnmatch (name pattern : String) : Bool :=
  gmatch (lexGlob pattern.data) name.data

end GlobMatching

section GasReportAggregation

/-- A gas report: contract identity to method identity to the ordered
gas-cost sequence, as insertion-ordered Python dicts. -/
abbrev GasReport := List (String × List (String × List Int))

/-- Resolution of a method ABI inside a contract type: only its optional
name is consulted by the gas aggregator. -/
structure MethodRef where
  name : Option String
deriving Repr, DecidableEq

/-- A resolved contract type as the gas aggregator consults it: its
optional name and the selector lookup `contract_type.methods[selector]`
(`none` models an unresolved selector, which the source treats as
falsy). -/
structure ContractTypeInfo where
  name : Option String
  findMethod : Option (List Nat) → Option MethodRef

/-- External collaborators of `CallTreeNode.create_gas_report`:
`ecosystem.decode_address`, the chain manager's contract-resolution cache
`chain_manager.contracts.get`, account-manager membership and alias
lookups, and the ecosystem's fee token symbol. -/
structure GasEnv where
  decodeAddress : String → String
  contractsGet : String → Option ContractTypeInfo
  isAccount : String → Bool
  accountAlias : String → Option String
  feeTokenSymbol : String

/-- A call-tree node as consumed by `create_gas_report`: callee address,
optional calldata, optional gas cost and sub-calls in order. -/
inductive GasNode where
  | mk (address : String) (calldata : Option (List Nat)) (gasCost : Option Int)
       (calls : List GasNode)

/-- Callee address of a gas node. -/
def GasNode.address : GasNode → String
  | .mk a _ _ _ => a

/-- Calldata of a gas node. -/
def GasNode.calldata : GasNode → Option (List Nat)
  | .mk _ cd _ _ => cd

/-- Gas cost of a gas node. -/
def GasNode.gasCost : GasNode → Option Int
  | .mk _ _ g _ => g

/-- Sub-calls of a gas node. -/
def GasNode.calls : GasNode → List GasNode
  | .mk _ _ _ cs => cs

/-- Merge the method dict of one contract into another: an existing method
key concatenates the gas sequences in place, a new key is appended. -/
def mergeMethods (a b : List (String × List Int)) : List (String × List Int) :=
  b.foldl (fun acc p =>
    match dget? p.1 acc with
    | some gs => dinsert p.1 (gs ++ p.2) acc
    | none => acc ++ [p]) a

/-- Merge one gas report into another: an existing contract key merges the
method dicts, a new contract key is appended. -/
def mergeTwo (a b : GasReport) : GasReport :=
  b.foldl (fun acc p =>
    match dget? p.1 acc with
    | some ms => dinsert p.1 (mergeMethods ms p.2) acc
    | none => acc ++ [p]) a

/-- Model of `evm_trace.gas.merge_reports` (an external dependency of the
source): the additive union of gas reports — identical contract and method
keys concatenate their gas-cost sequences, new keys append in encounter
order. -/
def merge_reports (rs : List GasReport) : GasReport :=
  match rs with
  | [] => []
  | r :: rest => rest.foldl mergeTwo r

/-- Embedding of `CallTreeNode._get_contract_id_from_address`
(src/ape/types/trace.py lines 136-140): known accounts render as the
fee-token transfer line, anything else as the raw address. -/
def getContractIdFromAddress (env : GasEnv) (address : String) : String :=
  if env.isAccount address then "Transferring " ++ env.feeTokenSymbol else address

/-- Embedding of `CallTreeNode._get_contract_id` as called with
`use_symbol=False` (src/ape/types/trace.py lines 105-134, the symbol
branch disabled by the caller): a truthy, non-blank contract-type name is
used stripped, otherwise the address fallback applies. -/
def getContractId (env : GasEnv) (address : String) (ct : Option ContractTypeInfo) :
    String :=
  match ct with
  | none => getContractIdFromAddress env address
  | some c =>
    match c.name with
    | some nm =>
      if nm ≠ "" then
        if pyStrip nm ≠ "" then pyStrip nm else getContractIdFromAddress env address
      else getContractIdFromAddress env address
    | none => getContractIdFromAddress env address

/-- An exclusion given to `create_gas_report`
(`ape.types.ContractFunctionPath`): a contract-name glob pattern and an
optional method-name glob pattern. -/
structure ContractFunctionPath where
  contractName : String
  methodName : Option String
deriving Repr, DecidableEq

/-- The first exclusion loop of `create_gas_report`: some exclusion with
no method qualifier glob-matches the contract id. -/
def contractExcluded (ex : List ContractFunctionPath) (cid : String) : Bool :=
  ex.any (fun e => e.methodName == none && fnmatch cid e.contractName)

/-- The second exclusion loop of `create_gas_report`: some exclusion with
a truthy method qualifier glob-matches both the contract id and the
method id. -/
def methodExcluded (ex : List ContractFunctionPath) (cid mid : String) : Bool :=
  ex.any (fun e =>
    match e.methodName with
    | some mn => !(mn == "") && fnmatch cid e.contractName && fnmatch mid mn
    | none => false)

/-- The gas-cost sequence recorded for one call site: the cost when
recorded, the empty sequence otherwise
(`[self.gas_cost] if self.gas_cost is not None else []`). -/
def gasList (g : Option Int) : List Int :=
  match g with
  | some x => [x]
  | none => []

/-- The shared tail of `create_gas_report` (src/ape/types/trace.py lines
284-293): with a truthy method id, build the node's own singleton report
and, when the mapped self-invocations produced at least one report, merge
them into it (a `none` propagates: the self-recursion never returned);
with a falsy method id return the empty report without consulting the
mapped calls at all. -/
def finishReport (cid : String) (mid? : Option String) (gasCost : Option Int)
    (selfReports : Option (List GasReport)) : Option GasReport :=
  match mid? with
  | some mid =>
    if mid ≠ "" then
      match selfReports with
      | some [] => some [(cid, [(mid, gasList gasCost)])]
      | some rs => some (merge_reports ([(cid, [(mid, gasList gasCost)])] :: rs))
      | none => none
    else some []
  | none => some []

/-- The shape of the exclusion return sites of `create_gas_report`
(src/ape/types/trace.py lines 231-237 and 270-276): one mapped report is
returned as is, several merge, none yield the empty report. -/
def mergeSelfReports : List GasReport → GasReport
  | [] => []
  | [r] => r
  | rs => merge_reports rs

/-- Selector extraction `self.calldata[:4] if self.calldata else None`:
falsy calldata (absent or empty) yields no selector. -/
def nodeSelectorOf (calldata : Option (List Nat)) : Option (List Nat) :=
  match calldata with
  | some cd => if cd.isEmpty then none else some (cd.take 4)
  | none => none

/-- Embedding of `CallTreeNode.create_gas_report`
(src/ape/types/trace.py lines 213-293).  The source binds
`this_method = self.create_gas_report` — a method bound to the node
itself — and maps it over `exclude_arg = [exclusions for _ in self.calls]`
(lines 217-218), so each of the `len(self.calls)` mapped calls at the
three return sites (lines 231, 270 and 289) re-invokes the same node
with the same exclusions; the children are never visited.  A node with
at least one sub-call whose branch consults a mapped call therefore
recurses on itself without bound (a `RecursionError` in CPython); the
fuel makes that self-recursion well-founded here, with `none` standing
for the call never returning normally.  The mapped value is hoisted into
a `let`; branches that do not consult it (a falsy method id) ignore it,
exactly as the source never evaluates the maps on those paths. -/
def create_gas_report (env : GasEnv) : Nat → List ContractFunctionPath → GasNode →
    Option GasReport
  | 0, _, _ => none
  | fuel + 1, ex, .mk addr calldata gasCost calls =>
    let selfReports : Option (List GasReport) :=
      (calls.map (fun _ => ex)).mapM
        (fun e => create_gas_report env fuel e (.mk addr calldata gasCost calls))
    let address := env.decodeAddress addr
    let contractType := env.contractsGet address
    let selector := nodeSelectorOf calldata
    let contract_id := getContractId env address contractType
    if contractExcluded ex contract_id then
      Option.map mergeSelfReports selfReports
    else
      let transferLine := "Transferring " ++ env.feeTokenSymbol
      if contract_id == transferLine && env.isAccount address then
        finishReport contract_id
          (some ("to:" ++ pyOrStr (env.accountAlias address) address))
          gasCost selfReports
      else if contract_id == transferLine then
        finishReport contract_id (some ("to:" ++ address)) gasCost selfReports
      else
        match contractType with
        | some ct =>
          let method_id :=
            match ct.findMethod selector with
            | some m =>
              match m.name with
              | some nm => nm
              | none =>
                match selector with
                | some s => bytesToHex s
                | none => "<UnknownMethod>"
            | none =>
              match selector with
              | some s => bytesToHex s
              | none => "<UnknownMethod>"
          if methodExcluded ex contract_id method_id then
            Option.map mergeSelfReports selfReports
          else
            finishReport contract_id (some method_id) gasCost selfReports
        | none =>
          match selector with
          | some s => finishReport contract_id (some (bytesToHex s)) gasCost selfReports
          | none => finishReport contract_id none gasCost selfReports

/-- The contract identity `create_gas_report` computes for a node. -/
def nodeContractId (env : GasEnv) (node : GasNode) : String :=
  getContractId env (env.decodeAddress node.address)
    (env.contractsGet (env.decodeAddress node.address))

/-- The method identity computed in the resolved-contract branch of
`create_gas_report`. -/
def resolvedMethodId (env : GasEnv) (node : GasNode) : String :=
  match env.contractsGet (env.decodeAddress node.address) with
  | some ct =>
    match ct.findMethod (nodeSelectorOf node.calldata) with
    | some m =>
      match m.name with
      | some nm => nm
      | none =>
        match nodeSelectorOf node.calldata with
        | some s => bytesToHex s
        | none => "<UnknownMethod>"
    | none =>
      match nodeSelectorOf node.calldata with
      | some s => bytesToHex s
      | none => "<UnknownMethod>"
  | none => "<UnknownMethod>"

/-- The method identity `create_gas_report` computes for a node across
its branch structure: transfer label, resolved-contract method id, raw
selector hex, or nothing. -/
def nodeMethodId (env : GasEnv) (node : GasNode) : Option String :=
  let address := env.decodeAddress node.address
  let contract_id := nodeContractId env node
  let transferLine := "Transferring " ++ env.feeTokenSymbol
  if contract_id == transferLine && env.isAccount address then
    some ("to:" ++ pyOrStr (env.accountAlias address) address)
  else if contract_id == transferLine then
    some ("to:" ++ address)
  else
    match env.contractsGet address with
    | some _ => some (resolvedMethodId env node)
    | none =>
      match nodeSelectorOf node.calldata with
      | some s => some (bytesToHex s)
      | none => none

/-- The value of the mapped self-invocations
`list(map(this_method, exclude_arg))` at the given remaining fuel: one
call of the node on itself per sub-call. -/
def selfCallsOf (env : GasEnv) (fuel : Nat) (ex : List ContractFunctionPath)
    (node : GasNode) : Option (List GasReport) :=
  (node.calls.map (fun _ => ex)).mapM (fun e => create_gas_report env fuel e node)

/-- Branch characterization of `create_gas_report`: a contract-level
exclusion hit returns the merge of the mapped self-invocations; a
method-level exclusion hit in the resolved-contract branch does the
same; in every remaining case the shared tail runs on the node's
computed contract and method identities with the mapped
self-invocations. -/
theorem create_gas_report_characterization (env : GasEnv)
    (ex : List ContractFunctionPath) (fuel : Nat) (node : GasNode) :
    create_gas_report env (fuel + 1) ex node =
      (if contractExcluded ex (nodeContractId env node) then
        Option.map mergeSelfReports (selfCallsOf env fuel ex node)
      else if (nodeContractId env node != "Transferring " ++ env.feeTokenSymbol)
          && (env.contractsGet (env.decodeAddress node.address)).isSome
          && methodExcluded ex (nodeContractId env node) (resolvedMethodId env node) then
        Option.map mergeSelfReports (selfCallsOf env fuel ex node)
      else
        finishReport (nodeContractId env node) (nodeMethodId env node)
          node.gasCost (selfCallsOf env fuel ex node)) := by
  obtain ⟨addr, calldata, gasCost, calls⟩ := node
  simp only [create_gas_report, selfCallsOf, nodeContractId, nodeMethodId,
    resolvedMethodId, GasNode.address, GasNode.calldata, GasNode.gasCost,
    GasNode.calls]
  by_cases hcx : contractExcluded ex
      (getContractId env (env.decodeAddress addr) (env.contractsGet (env.decodeAddress addr)))
  · simp [hcx]
  · simp only [hcx, Bool.false_eq_true, if_false]
    by_cases ht1 : (getContractId env (env.decodeAddress addr)
          (env.contractsGet (env.decodeAddress addr)) ==
        "Transferring " ++ env.feeTokenSymbol) && env.isAccount (env.decodeAddress addr)
    · have hne : (getContractId env (env.decodeAddress addr)
            (env.contractsGet (env.decodeAddress addr)) !=
          "Transferring " ++ env.feeTokenSymbol) = false := by
        rcases Bool.and_eq_true_iff.mp ht1 with ⟨h1, -⟩
        simp [bne, h1]
      simp [ht1, hne]
    · simp only [ht1, Bool.false_eq_true, if_false]
      by_cases ht2 : getContractId env (env.decodeAddress addr)
            (env.contractsGet (env.decodeAddress addr)) ==
          "Transferring " ++ env.feeTokenSymbol
      · have hne : (getContractId env (env.decodeAddress addr)
              (env.contractsGet (env.decodeAddress addr)) !=
            "Transferring " ++ env.feeTokenSymbol) = false := by
          simp [bne, ht2]
        simp [ht2, hne]
      · have hne : (getContractId env (env.decodeAddress addr)
              (env.contractsGet (env.decodeAddress addr)) !=
            "Transferring " ++ env.feeTokenSymbol) = true := by
          simp [bne, ht2]
        simp only [ht2, Bool.false_eq_true, if_false, hne, Bool.true_and]
        match hct : env.contractsGet (env.decodeAddress addr) with
        | some ct =>
          simp only [Option.isSome_some, Bool.true_and]
        | none =>
          simp only [Option.isSome_none, Bool.and_false, Bool.false_and,
            Bool.false_eq_true, if_false]
          match hsel : nodeSelectorOf calldata with
          | some s => simp [finishReport]
          | none => simp [finishReport]

/-- A node's branch consults the mapped self-invocations: a matching
contract-level exclusion, a matching method-level exclusion at a
resolved-contract node, or a truthy method identity reaching the shared
tail. -/
def consultsSelf (env : GasEnv) (ex : List ContractFunctionPath)
    (node : GasNode) : Bool :=
  contractExcluded ex (nodeContractId env node) ||
  ((nodeContractId env node != "Transferring " ++ env.feeTokenSymbol)
    && (env.contractsGet (env.decodeAddress node.address)).isSome
    && methodExcluded ex (nodeContractId env node) (resolvedMethodId env node)) ||
  (match nodeMethodId env node with
   | some m => !(m == "")
   | none => false)

/-- A node with at least one sub-call whose branch consults the mapped
self-invocations never returns, at any fuel: each mapped call re-invokes
the node itself. -/
theorem create_gas_report_diverges (env : GasEnv) (ex : List ContractFunctionPath)
    (node : GasNode) (hnn : node.calls ≠ [])
    (hcs : consultsSelf env ex node = true) :
    ∀ fuel : Nat, create_gas_report env fuel ex node = none := by
  intro fuel
  induction fuel with
  | zero =>
    obtain ⟨a, cd, g, cs⟩ := node
    rfl
  | succ n ih =>
    rw [create_gas_report_characterization]
    have hself : selfCallsOf env n ex node = none := by
      unfold selfCallsOf
      match hcalls : node.calls with
      | [] => exact absurd hcalls hnn
      | c :: cs => simp [List.mapM.loop, ih]
    by_cases h1 : contractExcluded ex (nodeContractId env node) = true
    · rw [if_pos h1, hself]
      rfl
    · rw [if_neg (by simp [h1])]
      by_cases h2 : ((nodeContractId env node != "Transferring " ++ env.feeTokenSymbol)
          && (env.contractsGet (env.decodeAddress node.address)).isSome
          && methodExcluded ex (nodeContractId env node)
            (resolvedMethodId env node)) = true
      · rw [if_pos h2, hself]
        rfl
      · rw [if_neg (by simp [h2])]
        have h3 : (match nodeMethodId env node with
            | some m => !(m == "")
            | none => false) = true := by
          unfold consultsSelf at hcs
          rcases Bool.or_eq_true_iff.mp hcs with hor | h3
          · rcases Bool.or_eq_true_iff.mp hor with ha | hb
            · exact absurd ha h1
            · exact absurd hb h2
          · exact h3
        match hm : nodeMethodId env node with
        | none => rw [hm] at h3; simp at h3
        | some m =>
          rw [hm] at h3
          simp only [Bool.not_eq_eq_eq_not, Bool.not_true, beq_eq_false_iff_ne,
            ne_eq] at h3
          unfold finishReport
          rw [hself]
          simp [h3]

/-- Concrete gas environment for witnesses: identity address decoding, a
single known contract type named Token whose `transfer` selector
resolves, no known accounts. -/
def gasEnvW : GasEnv :=
  { decodeAddress := (fun a => a),
    contractsGet := (fun a =>
      if a == "0x00000000000000000000000000000000000000aa" then
        some { name := some "Token",
               findMethod := (fun s =>
                 if s == some [169, 5, 156, 187] then some { name := some "transfer" }
                 else none) }
      else none),
    isAccount := (fun _ => false),
    accountAlias := (fun _ => none),
    feeTokenSymbol := "ETH" }

/-- Witness leaf node: a resolved Token.transfer call costing 50911 gas. -/
def tokenNode : GasNode :=
  .mk "0x00000000000000000000000000000000000000aa" (some [169, 5, 156, 187, 1, 2])
    (some 50911) []

/-- Witness parent node: a Token.transfer call costing 7 gas with the leaf
as its only sub-call. -/
def tokenParent : GasNode :=
  .mk "0x00000000000000000000000000000000000000aa" (some [169, 5, 156, 187])
    (some 7) [tokenNode]

/-- Parent node with unresolved contract type and no calldata, carrying
the Token leaf as its only sub-call. -/
def orphanParent : GasNode :=
  .mk "0x00000000000000000000000000000000000000bb" none (some 9) [tokenNode]

/-- Node at an unknown contract with a selector, used to probe exclusion
handling outside the resolved-contract branch. -/
def unknownNode : GasNode :=
  .mk "0x00000000000000000000000000000000000000bb" (some [18, 52, 86, 120])
    (some 5) []

/-- C3 (amended): `create_gas_report` never merges the children's reports
into the node's mapping, because every recursion site re-invokes the node
itself (`this_method` is bound to `self`).  When no exclusion matches and
the node's method identity resolves to a non-empty id, a childless node
returns its own singleton mapping, while a node with at least one
sub-call never returns normally (unbounded self-recursion, `none` at
every fuel); and a node whose method identity does not resolve returns
the empty mapping without consulting the mapped calls — so the children's
reports are never computed, let alone merged. -/
theorem gas_report_children_never_merged (env : GasEnv)
    (ex : List ContractFunctionPath) (node : GasNode) (mid : String)
    (hcx : contractExcluded ex (nodeContractId env node) = false)
    (hmx : methodExcluded ex (nodeContractId env node) (resolvedMethodId env node) = false)
    (hmid : nodeMethodId env node = some mid) (hne : mid ≠ "") :
    (node.calls = [] → ∀ fuel : Nat,
      create_gas_report env (fuel + 1) ex node =
        some [(nodeContractId env node, [(mid, gasList node.gasCost)])]) ∧
    (node.calls ≠ [] → ∀ fuel : Nat, create_gas_report env fuel ex node = none) := by
  constructor
  · intro hnil fuel
    rw [create_gas_report_characterization]
    have hself : selfCallsOf env fuel ex node = some [] := by
      unfold selfCallsOf
      rw [hnil]
      rfl
    have h2 : ((nodeContractId env node != "Transferring " ++ env.feeTokenSymbol)
        && (env.contractsGet (env.decodeAddress node.address)).isSome
        && methodExcluded ex (nodeContractId env node)
          (resolvedMethodId env node)) = false := by
      rw [hmx]
      simp
    rw [hcx, h2]
    simp only [Bool.false_eq_true, if_false]
    rw [hmid]
    unfold finishReport
    rw [hself]
    simp [hne]
  · intro hnn fuel
    refine create_gas_report_diverges env ex node hnn ?_ fuel
    unfold consultsSelf
    rw [hmid]
    simp [hne]

/-- Witness for C3 (amended): the childless Token leaf yields its own
singleton report, while the parent with that leaf as its sub-call never
returns — its sub-call's gas is not merged at any fuel. -/
theorem gas_report_children_never_merged_witness :
    create_gas_report gasEnvW 1 [] tokenNode =
      some [("Token", [("transfer", [50911])])] ∧
    create_gas_report gasEnvW 5 [] tokenParent = none := by
  constructor
  · have h := (gas_report_children_never_merged gasEnvW [] tokenNode "transfer"
      (by decide) (by decide) (by decide) (by decide)).1 rfl 0
    rw [h]
    decide
  · exact (gas_report_children_never_merged gasEnvW [] tokenParent "transfer"
      (by decide) (by decide) (by decide) (by decide)).2 (List.cons_ne_nil _ _) 5

/-- Counterexample to C3 as stated: a node whose method identity does not
resolve (unknown contract type, no calldata) returns the empty mapping
even though its sub-call's own report is non-empty — nothing of the
children is merged, and the children are not even visited. -/
theorem gas_report_drops_children_cex :
    create_gas_report gasEnvW 3 [] orphanParent = some [] ∧
    create_gas_report gasEnvW 3 [] tokenNode =
      some [("Token", [("transfer", [50911])])] := by
  constructor
  · decide
  · decide

/-- C4 (amended): a contract-level exclusion whose pattern glob-matches
the node's contract id drops the node's own contribution, but the mapped
calls re-invoke the node itself rather than the children: a childless
excluded node returns the empty report, and an excluded node with
sub-calls never returns normally.  A method-qualified exclusion is
consulted only at nodes whose contract type resolves (and whose id is
not the transfer line), with the same two outcomes on a match; a
resolved-contract node matching no exclusion keeps its own entry
(childless case).  Nodes with unresolved contract type are never dropped
by method-qualified exclusions — see the counterexample. -/
theorem gas_report_exclusion_behaviour (env : GasEnv)
    (ex : List ContractFunctionPath) (node : GasNode) :
    (contractExcluded ex (nodeContractId env node) = true →
      (node.calls = [] → ∀ fuel : Nat,
        create_gas_report env (fuel + 1) ex node = some []) ∧
      (node.calls ≠ [] → ∀ fuel : Nat, create_gas_report env fuel ex node = none)) ∧
    (contractExcluded ex (nodeContractId env node) = false →
      nodeContractId env node ≠ "Transferring " ++ env.feeTokenSymbol →
      (env.contractsGet (env.decodeAddress node.address)).isSome = true →
      methodExcluded ex (nodeContractId env node) (resolvedMethodId env node) = true →
      (node.calls = [] → ∀ fuel : Nat,
        create_gas_report env (fuel + 1) ex node = some []) ∧
      (node.calls ≠ [] → ∀ fuel : Nat, create_gas_report env fuel ex node = none)) ∧
    (contractExcluded ex (nodeContractId env node) = false →
      methodExcluded ex (nodeContractId env node) (resolvedMethodId env node) = false →
      ∀ mid, nodeMethodId env node = some mid → mid ≠ "" → node.calls = [] →
      ∀ fuel : Nat, create_gas_report env (fuel + 1) ex node =
        some [(nodeContractId env node, [(mid, gasList node.gasCost)])]) := by
  refine ⟨?_, ?_, ?_⟩
  · intro hcx
    constructor
    · intro hnil fuel
      rw [create_gas_report_characterization, hcx]
      have hself : selfCallsOf env fuel ex node = some [] := by
        unfold selfCallsOf
        rw [hnil]
        rfl
      rw [hself]
      rfl
    · intro hnn fuel
      refine create_gas_report_diverges env ex node hnn ?_ fuel
      unfold consultsSelf
      rw [hcx]
      simp
  · intro hcx hnt hsome hmx
    have hb : ((nodeContractId env node != "Transferring " ++ env.feeTokenSymbol)
        && (env.contractsGet (env.decodeAddress node.address)).isSome
        && methodExcluded ex (nodeContractId env node)
          (resolvedMethodId env node)) = true := by
      have h1 : (nodeContractId env node !=
          "Transferring " ++ env.feeTokenSymbol) = true := by
        simp [bne, hnt]
      rw [h1, hsome, hmx]
      rfl
    constructor
    · intro hnil fuel
      rw [create_gas_report_characterization, hcx]
      simp only [Bool.false_eq_true, if_false]
      rw [hb]
      have hself : selfCallsOf env fuel ex node = some [] := by
        unfold selfCallsOf
        rw [hnil]
        rfl
      rw [hself]
      rfl
    · intro hnn fuel
      refine create_gas_report_diverges env ex node hnn ?_ fuel
      unfold consultsSelf
      rw [hb]
      simp
  · intro hcx hmx mid hmid hne hnil fuel
    rw [create_gas_report_characterization]
    have hself : selfCallsOf env fuel ex node = some [] := by
      unfold selfCallsOf
      rw [hnil]
      rfl
    have h2 : ((nodeContractId env node != "Transferring " ++ env.feeTokenSymbol)
        && (env.contractsGet (env.decodeAddress node.address)).isSome
        && methodExcluded ex (nodeContractId env node)
          (resolvedMethodId env node)) = false := by
      rw [hmx]
      simp
    rw [hcx, h2]
    simp only [Bool.false_eq_true, if_false]
    rw [hmid]
    unfold finishReport
    rw [hself]
    simp [hne]

/-- Witness for C4 (amended): a contract-level and a method-level
exclusion each empty the childless Token leaf's report; the excluded
parent with a sub-call never returns; an exclusion naming a different
method leaves the leaf's own entry intact. -/
theorem gas_report_exclusion_behaviour_witness :
    create_gas_report gasEnvW 1 [⟨"Tok*", none⟩] tokenNode = some [] ∧
    create_gas_report gasEnvW 5 [⟨"Tok*", none⟩] tokenParent = none ∧
    create_gas_report gasEnvW 1 [⟨"Token", some "transfer"⟩] tokenNode = some [] ∧
    create_gas_report gasEnvW 1 [⟨"Token", some "mint"⟩] tokenNode =
      some [("Token", [("transfer", [50911])])] := by
  refine ⟨?_, ?_, ?_, ?_⟩
  · exact ((gas_report_exclusion_behaviour gasEnvW [⟨"Tok*", none⟩] tokenNode).1
      (by decide)).1 rfl 0
  · exact ((gas_report_exclusion_behaviour gasEnvW [⟨"Tok*", none⟩] tokenParent).1
      (by decide)).2 (List.cons_ne_nil _ _) 5
  · exact ((gas_report_exclusion_behaviour gasEnvW
      [⟨"Token", some "transfer"⟩] tokenNode).2.1
      (by decide) (by decide) (by decide) (by decide)).1 rfl 0
  · have h := (gas_report_exclusion_behaviour gasEnvW
      [⟨"Token", some "mint"⟩] tokenNode).2.2
      (by decide) (by decide) "transfer" (by decide) (by decide) rfl 0
    rw [h]
    decide

/-- Counterexample to C4 as stated: at a node whose contract type does not
resolve, a method-qualified exclusion whose patterns glob-match both the
contract id and the method id does not drop the entry. -/
theorem gas_report_method_exclusion_cex :
    fnmatch "0x00000000000000000000000000000000000000bb" "*" = true ∧
    fnmatch "0x12345678" "*" = true ∧
    create_gas_report gasEnvW 1 [⟨"*", some "*"⟩] unknownNode =
      some [("0x00000000000000000000000000000000000000bb", [("0x12345678", [5])])] := by
  refine ⟨by decide, by decide, by decide⟩

/-- Python `min` over a non-empty integer list (0 for the empty list,
which the caller never passes). -/
def pyMin : List Int → Int
  | [] => 0
  | x :: xs => xs.foldl min x

/-- Python `max` over a non-empty integer list. -/
def pyMax : List Int → Int
  | [] => 0
  | x :: xs => xs.foldl max x

/-- Round-half-to-even of the ratio `num / den` for positive `den`,
modelling `int(round(x))` of CPython on the exact ratio (the source goes
through floats; the model is exact). -/
def halfEvenRatio (num den : Int) : Int :=
  let q := Int.fdiv num den
  let r := num - q * den
  if 2 * r < den then q
  else if den < 2 * r then q + 1
  else if q % 2 = 0 then q else q + 1

/-- Ascending sort used by `statistics.median`. -/
def pySorted (l : List Int) : List Int :=
  List.insertionSort (fun a b => a ≤ b) l

/-- The `statistics.median` cell: middle element of the sorted list for an
odd count, the half-even-rounded average of the two middle elements for an
even count (the source additionally rounds the resulting value, which is
exact for the odd case). -/
def medianCell (l : List Int) : Int :=
  let s := pySorted l
  let n := s.length
  if n % 2 = 1 then (s.get? (n / 2)).getD 0
  else halfEvenRatio (((s.get? (n / 2 - 1)).getD 0) + ((s.get? (n / 2)).getD 0)) 2

/-- One rendered row of a gas table: method name, times called, min, max,
rounded mean and rounded median (the source renders these as strings; the
model keeps the numeric content). -/
structure GasRowCells where
  method : String
  timesCalled : Nat
  minGas : Int
  maxGas : Int
  meanGas : Int
  medianGas : Int
deriving Repr, DecidableEq

/-- The row built for one method entry of `parse_gas_table`: a method
with no recorded gas costs yields no row (`if not gases: continue`). -/
def gasRow? (p : String × List Int) : Option GasRowCells :=
  match p.2 with
  | [] => none
  | g :: gs =>
    some { method := p.1,
           timesCalled := (g :: gs).length,
           minGas := pyMin (g :: gs),
           maxGas := pyMax (g :: gs),
           meanGas := halfEvenRatio (g :: gs).sum (g :: gs).length,
           medianGas := medianCell (g :: gs) }

/-- The rows of one contract's table, in method iteration order. -/
def gasRows (methodCalls : List (String × List Int)) : List GasRowCells :=
  methodCalls.filterMap gasRow?

/-- Embedding of `parse_gas_table` (src/ape/utils/trace.py lines 129-160):
one table per contract titled with the contract id, holding one row per
method with at least one recorded gas cost; a table that would have no
rows is not appended at all. -/
def parse_gas_table (report : GasReport) : List (String × List GasRowCells) :=
  report.filterMap (fun p =>
    if (gasRows p.2).isEmpty then none else some (p.1 ++ " Gas", gasRows p.2))

/-- C8 (amended): `create_gas_report` can map a key to an empty gas-cost
sequence (a call site with no recorded gas cost — see the counterexample);
it is the display layer `parse_gas_table` that skips such entries: every
emitted table has at least one row, and every row comes from a call site
recorded at least once. -/
theorem parse_gas_table_skips_empty (report : GasReport)
    (t : String × List GasRowCells) (ht : t ∈ parse_gas_table report) :
    t.2 ≠ [] ∧ ∀ r ∈ t.2, 1 ≤ r.timesCalled := by
  unfold parse_gas_table at ht
  rw [List.mem_filterMap] at ht
  obtain ⟨p, -, hp⟩ := ht
  by_cases he : (gasRows p.2).isEmpty
  · rw [if_pos he] at hp
    exact absurd hp (by simp)
  · rw [if_neg he] at hp
    obtain rfl := (Option.some.injEq _ _).mp hp
    constructor
    · simpa [List.isEmpty_iff] using he
    · intro r hr
      unfold gasRows at hr
      rw [List.mem_filterMap] at hr
      obtain ⟨q, -, hq⟩ := hr
      unfold gasRow? at hq
      match hql : q.2 with
      | [] => rw [hql] at hq; exact absurd hq (by simp)
      | g :: gs =>
        rw [hql] at hq
        obtain rfl := (Option.some.injEq _ _).mp hq
        simp

/-- A transfer-shaped node (known account receiver, unresolved contract)
with no recorded gas cost, used to exhibit an empty gas-cost sequence. -/
def accountEnv : GasEnv :=
  { decodeAddress := (fun a => a),
    contractsGet := (fun _ => none),
    isAccount := (fun a => a == "0x00000000000000000000000000000000000000aa"),
    accountAlias := (fun _ => none),
    feeTokenSymbol := "ETH" }

/-- A value-transfer call frame with no recorded gas cost. -/
def transferNode : GasNode :=
  .mk "0x00000000000000000000000000000000000000aa" none none []

/-- Counterexample to C8 as stated: this mapping returned by
`create_gas_report` (a childless node, so the call terminates) maps a
key to the empty gas-cost sequence. -/
theorem gas_report_empty_sequence_cex :
    create_gas_report accountEnv 1 [] transferNode =
      some [("Transferring ETH",
        [("to:0x00000000000000000000000000000000000000aa", [])])] := by
  decide

/-- The single row the witness report renders. -/
def tokenRow : GasRowCells :=
  { method := "transfer", timesCalled := 1, minGas := 50911, maxGas := 50911,
    meanGas := 50911, medianGas := 50911 }

/-- Witness for C8: the display layer drops the empty-sequence entries
(and the table that would be all-empty) and keeps the recorded one; the
theorem applies to the emitted table. -/
theorem parse_gas_table_skips_empty_witness :
    parse_gas_table
        [("Token", [("transfer", [50911]), ("mint", [])]), ("Empty", [("m", [])])] =
      [("Token Gas", [tokenRow])] ∧
    (("Token Gas", [tokenRow]) : String × List GasRowCells).2 ≠ [] := by
  constructor
  · decide
  · exact (parse_gas_table_skips_empty
      [("Token", [("transfer", [50911]), ("mint", [])]), ("Empty", [("m", [])])]
      ("Token Gas", [tokenRow]) (by decide)).1

end GasReportAggregation

section ValueFormatter

/-- The checksummed zero address (`ape.utils.ZERO_ADDRESS`). -/
def zeroAddress : String := "0x0000000000000000000000000000000000000000"

/-- Python `bytes.strip(b"\x00")`: drop leading and trailing NUL bytes. -/
def stripNul (bs : List Nat) : List Nat :=
  ((bs.dropWhile (fun b => b == 0)).reverse.dropWhile (fun b => b == 0)).reverse

/-- External collaborators of `CallTreeNode._decode_value` and
`_decode_address`: the UTF-8 decoder (`none` models the
`UnicodeDecodeError` the source catches), `eth_utils.humanize_hash`,
`ecosystem.decode_address`, the chain manager's contract cache, and the
node's optional `caller_address`. -/
structure FmtEnv where
  utf8Decode? : List Nat → Option String
  humanizeHash : List Nat → String
  decodeAddress : String → String
  contractsGet : String → Option ContractTypeInfo
  callerAddress : Option String

/-- Embedding of `CallTreeNode._decode_address`
(src/ape/types/trace.py lines 193-206): the zero address and the caller
address get literal markers, a known contract with a truthy name renders
as that name, anything else as the checksummed address. -/
def decodeAddressLabel (env : FmtEnv) (address : String) : String :=
  if address == zeroAddress then "ZERO_ADDRESS"
  else if env.callerAddress == some address then "tx.origin"
  else
    let checksum := env.decodeAddress address
    match env.contractsGet checksum with
    | some ct =>
      match ct.name with
      | some nm => if nm ≠ "" then nm else checksum
      | none => checksum
    | none => checksum

mutual

/-- Recursion measure for the value formatter: byte strings dominate the
strings their hex rendering recurses into; containers dominate their
elements. -/
def vsize : Value → Nat
  | .vBytes _ => 1
  | .vList vs => 1 + vsizeL vs
  | .vTuple vs => 1 + vsizeL vs
  | .vStruct fs => 1 + vsizeF fs
  | .vDict fs => 1 + vsizeF fs
  | _ => 0

/-- Sum of measures over a value list. -/
def vsizeL : List Value → Nat
  | [] => 0
  | v :: vs => vsize v + vsizeL vs

/-- Sum of measures over a field list. -/
def vsizeF : List (String × Value) → Nat
  | [] => 0
  | p :: ps => vsize p.2 + vsizeF ps

end

/-- A list member's measure is bounded by the list measure. -/
theorem vsize_le_of_mem : ∀ (vs : List Value) (v : Value), v ∈ vs → vsize v ≤ vsizeL vs
  | _ :: vs, v, h => by
    rcases List.mem_cons.mp h with h1 | h2
    · subst h1; simp [vsizeL]
    · have := vsize_le_of_mem vs v h2
      simp only [vsizeL]
      omega

/-- A field member's measure is bounded by the field-list measure. -/
theorem vsize_le_of_mem_field : ∀ (fs : List (String × Value)) (p : String × Value),
    p ∈ fs → vsize p.2 ≤ vsizeF fs
  | _ :: fs, p, h => by
    rcases List.mem_cons.mp h with h1 | h2
    · subst h1; simp [vsizeF]
    · have := vsize_le_of_mem_field fs p h2
      simp only [vsizeF]
      omega

/-- Embedding of `CallTreeNode._decode_value`
(src/ape/types/trace.py lines 162-191) in the `Except` monad, so that an
uncaught Python exception would surface as an `error` result.  Byte
strings try a UTF-8 decode of the NUL-stripped bytes (quoting on success,
with the failure caught by the source); long undecodable bytes humanize,
short ones render as hex, and hex that is a well-formed 20-byte address
re-enters the address branch.  Address-shaped strings resolve to labels,
truthy strings get quotes, lists and tuples recurse element-wise into a
list, structured records recurse field-wise into a dict, and every other
value passes through unchanged.  The fuel only bounds the recursion depth;
the totality theorem shows it never runs out from `vsize v + 1`. -/
def decodeValueF (env : FmtEnv) : Nat → Value → Except String Value
  | 0, _ => .error "fuel exhausted"
  | fuel + 1, .vBytes bs =>
    match env.utf8Decode? (stripNul bs) with
    | some s => .ok (.vStr ("'" ++ s ++ "'"))
    | none =>
      if bs.length > 24 then .ok (.vStr (env.humanizeHash bs))
      else
        if isHexAddress (bytesToHex bs) then decodeValueF env fuel (.vStr (bytesToHex bs))
        else .ok (.vStr (bytesToHex bs))
  | _ + 1, .vStr s =>
    if isHexAddress s then .ok (.vStr (decodeAddressLabel env s))
    else if s ≠ "" then .ok (.vStr ("\"" ++ s ++ "\""))
    else .ok (.vStr s)
  | fuel + 1, .vList vs => do
    let rs ← vs.mapM (decodeValueF env fuel)
    return .vList rs
  | fuel + 1, .vTuple vs => do
    let rs ← vs.mapM (decodeValueF env fuel)
    return .vList rs
  | fuel + 1, .vStruct fs => do
    let rs ← fs.mapM (fun p => do
      let r ← decodeValueF env fuel p.2
      return (p.1, r))
    return .vDict rs
  | _ + 1, v => .ok v

/-- The value formatter at its sufficient fuel. -/
def decodeValue (env : FmtEnv) (v : Value) : Except String Value :=
  decodeValueF env (vsize v + 1) v

/-- A monadic map over values all of which succeed, succeeds. -/
theorem mapM_ok_of_ok {α β : Type} (f : α → Except String β) :
    ∀ (l : List α), (∀ x ∈ l, ∃ r, f x = Except.ok r) →
    ∃ rs : List β, l.mapM f = Except.ok rs
  | [], _ => ⟨[], rfl⟩
  | a :: t, h => by
    obtain ⟨r, hr⟩ := h a (List.mem_cons_self a t)
    obtain ⟨rs, hrs⟩ := mapM_ok_of_ok f t (fun x hx => h x (List.mem_cons_of_mem a hx))
    refine ⟨r :: rs, ?_⟩
    rw [List.mapM_cons, hr, hrs]
    rfl

/-- With fuel above the measure, the formatter always succeeds. -/
theorem decodeValueF_total (env : FmtEnv) :
    ∀ (fuel : Nat) (v : Value), vsize v < fuel →
    ∃ r, decodeValueF env fuel v = Except.ok r := by
  intro fuel
  induction fuel with
  | zero => intro v hv; omega
  | succ n ih =>
    intro v hv
    match v with
    | .vBytes bs =>
      simp only [decodeValueF]
      match env.utf8Decode? (stripNul bs) with
      | some s => exact ⟨_, rfl⟩
      | none =>
        simp only
        by_cases hlen : bs.length > 24
        · rw [if_pos hlen]; exact ⟨_, rfl⟩
        · rw [if_neg hlen]
          by_cases hhex : isHexAddress (bytesToHex bs)
          · rw [if_pos hhex]
            exact ih (.vStr (bytesToHex bs)) (by simp only [vsize] at hv ⊢; omega)
          · rw [if_neg hhex]; exact ⟨_, rfl⟩
    | .vStr s =>
      simp only [decodeValueF]
      by_cases hhex : isHexAddress s
      · rw [if_pos hhex]; exact ⟨_, rfl⟩
      · rw [if_neg hhex]
        by_cases hne : s ≠ ""
        · rw [if_pos hne]; exact ⟨_, rfl⟩
        · rw [if_neg hne]; exact ⟨_, rfl⟩
    | .vList vs =>
      simp only [decodeValueF]
      have hall : ∀ x ∈ vs, ∃ r, decodeValueF env n x = Except.ok r := by
        intro x hx
        refine ih x ?_
        have h1 := vsize_le_of_mem vs x hx
        simp only [vsize] at hv
        omega
      obtain ⟨rs, hrs⟩ := mapM_ok_of_ok (decodeValueF env n) vs hall
      rw [hrs]
      exact ⟨_, rfl⟩
    | .vTuple vs =>
      simp only [decodeValueF]
      have hall : ∀ x ∈ vs, ∃ r, decodeValueF env n x = Except.ok r := by
        intro x hx
        refine ih x ?_
        have h1 := vsize_le_of_mem vs x hx
        simp only [vsize] at hv
        omega
      obtain ⟨rs, hrs⟩ := mapM_ok_of_ok (decodeValueF env n) vs hall
      rw [hrs]
      exact ⟨_, rfl⟩
    | .vStruct fs =>
      simp only [decodeValueF]
      have hall : ∀ p ∈ fs, ∃ r,
          (do
            let r ← decodeValueF env n p.2
            return (p.1, r) : Except String (String × Value)) = Except.ok r := by
        intro p hp
        obtain ⟨r, hr⟩ := ih p.2 (by
          have h1 := vsize_le_of_mem_field fs p hp
          simp only [vsize] at hv
          omega)
        exact ⟨(p.1, r), by simp [hr]⟩
      obtain ⟨rs, hrs⟩ := mapM_ok_of_ok _ fs hall
      rw [hrs]
      exact ⟨_, rfl⟩
    | .vInt i => exact ⟨_, rfl⟩
    | .vBool b => exact ⟨_, rfl⟩
    | .vDict d => exact ⟨_, rfl⟩
    | .vNone => exact ⟨_, rfl⟩

/-- C9: the value formatter is total — for every value the decoder can
produce (byte strings, address-shaped strings, plain strings, lists and
tuples, structured records, and all remaining values, which pass through
unchanged), `decodeValue` returns a result and never raises; the
pass-through of the remaining kinds is stated explicitly. -/
theorem decode_value_total (env : FmtEnv) (v : Value) :
    (∃ r, decodeValue env v = Except.ok r) ∧
    (∀ i : Int, decodeValue env (.vInt i) = Except.ok (.vInt i)) ∧
    (∀ b : Bool, decodeValue env (.vBool b) = Except.ok (.vBool b)) ∧
    decodeValue env .vNone = Except.ok .vNone := by
  refine ⟨decodeValueF_total env (vsize v + 1) v (by omega), ?_, ?_, rfl⟩
  · intro i; rfl
  · intro b; rfl

end ValueFormatter

section TransactionPreparer

/-- The transaction type tags dispatched by `prepare_transaction`
(`ape_ethereum` `TransactionType`: static fee `0x0`, dynamic EIP-1559 fee
`0x2`). -/
inductive TxType where
  | static
  | dynamic
deriving Repr, DecidableEq

/-- The shapes a gas-limit field can hold before preparation: Python
`None`, a raw integer, or a string (decimal, hex, `"max"` or
`"auto"`). -/
inductive GasVal where
  | unset
  | int (n : Int)
  | str (s : String)
deriving Repr, DecidableEq

/-- Python truthiness of a gas-limit value (`None`, `0` and the empty
string are falsy), as used by `txn.gas_limit or self.network.gas_limit`. -/
def gasFalsy : GasVal → Bool
  | .unset => true
  | .int n => n == 0
  | .str s => s == ""

/-- Model of `str.isnumeric` restricted to ASCII digits (the shapes the
source feeds it). -/
def pyIsNumeric (s : String) : Bool :=
  !(s == "") && s.data.all Char.isDigit

/-- Model of `eth_utils.is_hex` on the strings reaching the gas-limit
resolution: an optionally `0x`-prefixed string of at least one hex
digit. -/
def isHexStr (s : String) : Bool :=
  (hexToNat? s).isSome

/-- Python `int(s)` for a numeric string. -/
def decToNat (s : String) : Nat :=
  s.data.foldl (fun acc c => acc * 10 + (c.toNat - 48)) 0

/-- An unsigned transaction as `prepare_transaction` mutates it: chain id,
type tag, fee fields, gas limit, nonce and confirmation requirement (the
payload fields the preparer never touches are omitted). -/
structure Txn where
  chainId : Int
  txType : TxType
  gasPrice : Option Int
  maxFee : Option Int
  maxPriorityFee : Option Int
  gasLimit : GasVal
  nonce : Option Int
  requiredConfirmations : Option Int
deriving Repr, DecidableEq

/-- External collaborators of `ProviderAPI.prepare_transaction`: the
network's expected chain id, the provider's gas price, priority fee, base
fee and max gas (`Web3Provider.max_gas` returns the latest block's gas
limit), the gas estimator, the network's configured default gas limit and
required confirmations. -/
structure ProviderEnv where
  chainId : Int
  gasPrice : Int
  priorityFee : Int
  baseFee : Int
  maxGas : Int
  estimateGasCost : Txn → Int
  networkGasLimit : GasVal
  networkRequiredConfirmations : Int

/-- The failure modes of the preparer: the explicit `TransactionError` and
the `assert` guarding resolved gas limits. -/
inductive PrepError where
  | transactionError (msg : String)
  | assertionError
deriving Repr, DecidableEq

/-- Rule 1 of `prepare_transaction`: overwrite the chain id with the
network's expected value unconditionally. -/
def withChainId (env : ProviderEnv) (txn : Txn) : Txn :=
  { txn with chainId := env.chainId }

/-- Rules 2-3 of `prepare_transaction`: a static-fee transaction with no
gas price gets the network gas price; a dynamic-fee transaction fills a
missing priority fee from the provider and a missing max fee as
`base_fee + max_priority_fee` (the priority fee is always set at that
point, which the `getD` access models). -/
def withFees (env : ProviderEnv) (txn : Txn) : Txn :=
  match txn.txType with
  | .static =>
    if txn.gasPrice == none then { txn with gasPrice := some env.gasPrice } else txn
  | .dynamic =>
    let t1 :=
      if txn.maxPriorityFee == none then { txn with maxPriorityFee := some env.priorityFee }
      else txn
    if t1.maxFee == none then
      { t1 with maxFee := some (env.baseFee + t1.maxPriorityFee.getD 0) }
    else t1

/-- Rule 4 of `prepare_transaction`
(src/ape/api/providers/provider.py lines 496-506): the transaction's gas
limit, or the network's when falsy, resolved in source order — numeric
string, hex string, the literal max (the provider's max gas), the literal
auto or `None` (the estimator on the in-progress transaction), any other
value kept as-is. -/
def resolveGasLimit (env : ProviderEnv) (txn : Txn) : Txn :=
  let gl := if gasFalsy txn.gasLimit then env.networkGasLimit else txn.gasLimit
  match gl with
  | .str s =>
    if pyIsNumeric s then { txn with gasLimit := .int (decToNat s : Int) }
    else if isHexStr s then { txn with gasLimit := .int ((hexToNat? s).getD 0 : Int) }
    else if s == "max" then { txn with gasLimit := .int env.maxGas }
    else if s == "auto" then { txn with gasLimit := .int (env.estimateGasCost txn) }
    else { txn with gasLimit := .str s }
  | .unset => { txn with gasLimit := .int (env.estimateGasCost txn) }
  | .int n => { txn with gasLimit := .int n }

/-- The tail of `prepare_transaction`
(src/ape/api/providers/provider.py lines 508-516): the `assert` that no
`"auto"`/`"max"` string survives resolution, then the
required-confirmations default and validation (rule 5). -/
def finalizeTxn (env : ProviderEnv) (txn3 : Txn) : Except PrepError Txn :=
  if txn3.gasLimit == .str "auto" || txn3.gasLimit == .str "max" then
    .error .assertionError
  else
    match txn3.requiredConfirmations with
    | none => .ok { txn3 with requiredConfirmations := some env.networkRequiredConfirmations }
    | some rc =>
      if rc < 0 then
        .error (.transactionError "'required_confirmations' must be a positive integer.")
      else .ok txn3

/-- Embedding of `ProviderAPI.prepare_transaction`
(src/ape/api/providers/provider.py lines 462-516): chain id, fee fields,
gas limit and the confirmation tail, in rule order. -/
def prepare_transaction (env : ProviderEnv) (txn0 : Txn) : Except PrepError Txn :=
  finalizeTxn env (resolveGasLimit env (withFees env (withChainId env txn0)))

/-- After resolution the gas limit is never the literal auto or max, so
the source's `assert` can never fire. -/
theorem resolveGasLimit_not_auto_max (env : ProviderEnv) (txn : Txn) :
    ((resolveGasLimit env txn).gasLimit == GasVal.str "auto" ||
      (resolveGasLimit env txn).gasLimit == GasVal.str "max") = false := by
  unfold resolveGasLimit
  match hgl : (if gasFalsy txn.gasLimit then env.networkGasLimit else txn.gasLimit) with
  | .str s =>
    by_cases h1 : pyIsNumeric s
    · simp [h1]
    · by_cases h2 : isHexStr s
      · simp [h1, h2]
      · by_cases h3 : s = "max"
        · subst h3
          have e1 : pyIsNumeric "max" = false := by decide
          have e2 : isHexStr "max" = false := by decide
          simp [e1, e2]
        · by_cases h4 : s = "auto"
          · subst h4
            have e1 : pyIsNumeric "auto" = false := by decide
            have e2 : isHexStr "auto" = false := by decide
            have e3 : ("auto" == "max") = false := by decide
            simp [e1, e2, e3]
          · simp [h1, h2, h3, h4]
  | .unset => simp
  | .int n => simp

/-- The gas-value shapes the preparer's contract accepts. -/
def acceptedGasShape : GasVal → Bool
  | .unset => true
  | .int _ => true
  | .str s => pyIsNumeric s || isHexStr s || s == "max" || s == "auto"

/-- A well-formed confirmation requirement: absent, or a non-negative
integer (rule 5's precondition for success). -/
def rcOk (txn : Txn) : Prop :=
  txn.requiredConfirmations = none ∨
    ∃ rc, txn.requiredConfirmations = some rc ∧ 0 ≤ rc

/-- C5: with a well-formed confirmation requirement, `prepare_transaction`
resolves the literal max to the provider's max gas (the network's current
block gas limit in the web3 provider); resolves the literal auto — and an
unset gas limit when the network default is auto or unset — to the
estimator's value for the in-progress transaction (chain id and fee fields
already filled); leaves every accepted gas-limit shape as a concrete
integer; and rejects a negative required-confirmations value with a
`TransactionError`. -/
theorem prepare_transaction_spec (env : ProviderEnv) (txn : Txn) :
    (rcOk txn → txn.gasLimit = .str "max" →
      ∃ t, prepare_transaction env txn = .ok t ∧ t.gasLimit = .int env.maxGas) ∧
    (rcOk txn → txn.gasLimit = .str "auto" ∨
        (txn.gasLimit = .unset ∧
          (env.networkGasLimit = .str "auto" ∨ env.networkGasLimit = .unset)) →
      ∃ t, prepare_transaction env txn = .ok t ∧
        t.gasLimit = .int (env.estimateGasCost (withFees env (withChainId env txn)))) ∧
    (rcOk txn →
      acceptedGasShape (if gasFalsy txn.gasLimit then env.networkGasLimit else txn.gasLimit) =
        true →
      ∃ t n, prepare_transaction env txn = .ok t ∧ t.gasLimit = .int n) ∧
    (∀ rc : Int, txn.requiredConfirmations = some rc → rc < 0 →
      prepare_transaction env txn =
        .error (.transactionError "'required_confirmations' must be a positive integer.")) := by
  have hfees : (withFees env (withChainId env txn)).gasLimit = txn.gasLimit := by
    unfold withFees withChainId
    match txn.txType with
    | .static =>
      by_cases h : txn.gasPrice = none <;> simp_all
    | .dynamic =>
      by_cases h1 : txn.maxPriorityFee = none <;> by_cases h2 : txn.maxFee = none <;>
        simp_all
  have hfeerc : (withFees env (withChainId env txn)).requiredConfirmations =
      txn.requiredConfirmations := by
    unfold withFees withChainId
    match txn.txType with
    | .static =>
      by_cases h : txn.gasPrice = none <;> simp_all
    | .dynamic =>
      by_cases h1 : txn.maxPriorityFee = none <;> by_cases h2 : txn.maxFee = none <;>
        simp_all
  have hresrc : ∀ t : Txn, (resolveGasLimit env t).requiredConfirmations =
      t.requiredConfirmations := by
    intro t
    unfold resolveGasLimit
    match hgl : (if gasFalsy t.gasLimit then env.networkGasLimit else t.gasLimit) with
    | .str s =>
      by_cases h1 : pyIsNumeric s
      · simp [h1]
      · by_cases h2 : isHexStr s
        · simp [h1, h2]
        · by_cases h3 : s = "max"
          · subst h3
            have e1 : pyIsNumeric "max" = false := by decide
            have e2 : isHexStr "max" = false := by decide
            simp [e1, e2]
          · by_cases h4 : s = "auto"
            · subst h4
              have e1 : pyIsNumeric "auto" = false := by decide
              have e2 : isHexStr "auto" = false := by decide
              have e3 : ("auto" == "max") = false := by decide
              simp [e1, e2, e3]
            · simp [h1, h2, h3, h4]
    | .unset => simp
    | .int n => simp
  have hok : ∀ (g : GasVal), rcOk txn →
      (resolveGasLimit env (withFees env (withChainId env txn))).gasLimit = g →
      (g == GasVal.str "auto" || g == GasVal.str "max") = false →
      ∃ t, prepare_transaction env txn = .ok t ∧ t.gasLimit = g := by
    intro g hrc hg hnam
    unfold prepare_transaction finalizeTxn
    simp only [hg, hnam, Bool.false_eq_true, if_false]
    rw [hresrc, hfeerc]
    rcases hrc with h | ⟨rc, hrc1, hrc2⟩
    · rw [h]
      exact ⟨_, rfl, rfl⟩
    · rw [hrc1]
      dsimp only
      rw [if_neg (by omega)]
      exact ⟨_, rfl, hg⟩
  refine ⟨?_, ?_, ?_, ?_⟩
  · intro hrc hmax
    refine hok (.int env.maxGas) hrc ?_ (by rfl)
    unfold resolveGasLimit
    rw [hfees, hmax]
    have e1 : pyIsNumeric "max" = false := by decide
    have e2 : isHexStr "max" = false := by decide
    simp [gasFalsy, e1, e2]
  · intro hrc hauto
    refine hok (.int (env.estimateGasCost (withFees env (withChainId env txn)))) hrc ?_ (by rfl)
    have e1 : pyIsNumeric "auto" = false := by decide
    have e2 : isHexStr "auto" = false := by decide
    have e3 : ("auto" == "max") = false := by decide
    unfold resolveGasLimit
    rw [hfees]
    rcases hauto with h | ⟨h1, h2⟩
    · rw [h]
      simp [gasFalsy, e1, e2, e3]
    · rw [h1]
      rcases h2 with h2 | h2 <;> simp [gasFalsy, h2, e1, e2, e3]
  · intro hrc hshape
    have hglshape : acceptedGasShape
        (if gasFalsy (withFees env (withChainId env txn)).gasLimit then env.networkGasLimit
         else (withFees env (withChainId env txn)).gasLimit) = true := by
      rw [hfees]; exact hshape
    match hgl : (if gasFalsy (withFees env (withChainId env txn)).gasLimit then
        env.networkGasLimit else (withFees env (withChainId env txn)).gasLimit) with
    | .str s =>
      rw [hgl] at hglshape
      simp only [acceptedGasShape] at hglshape
      by_cases h1 : pyIsNumeric s
      · obtain ⟨t, ht, hg⟩ := hok (.int (decToNat s : Int)) hrc
          (by unfold resolveGasLimit; rw [hgl]; simp [h1]) (by rfl)
        exact ⟨t, _, ht, hg⟩
      · by_cases h2 : isHexStr s
        · obtain ⟨t, ht, hg⟩ := hok (.int ((hexToNat? s).getD 0 : Int)) hrc
            (by unfold resolveGasLimit; rw [hgl]; simp [h1, h2]) (by rfl)
          exact ⟨t, _, ht, hg⟩
        · by_cases h3 : s = "max"
          · obtain ⟨t, ht, hg⟩ := hok (.int env.maxGas) hrc
              (by
                unfold resolveGasLimit
                rw [hgl, h3]
                have e1 : pyIsNumeric "max" = false := by decide
                have e2 : isHexStr "max" = false := by decide
                simp [e1, e2]) (by rfl)
            exact ⟨t, _, ht, hg⟩
          · by_cases h4 : s = "auto"
            · obtain ⟨t, ht, hg⟩ := hok
                (.int (env.estimateGasCost (withFees env (withChainId env txn)))) hrc
                (by
                  unfold resolveGasLimit
                  rw [hgl, h4]
                  have e1 : pyIsNumeric "auto" = false := by decide
                  have e2 : isHexStr "auto" = false := by decide
                  have e3 : ("auto" == "max") = false := by decide
                  simp [e1, e2, e3]) (by rfl)
              exact ⟨t, _, ht, hg⟩
            · exfalso
              simp [h1, h2, h3, h4] at hglshape
    | .unset =>
      obtain ⟨t, ht, hg⟩ := hok
        (.int (env.estimateGasCost (withFees env (withChainId env txn)))) hrc
        (by unfold resolveGasLimit; rw [hgl]) (by rfl)
      exact ⟨t, _, ht, hg⟩
    | .int n =>
      obtain ⟨t, ht, hg⟩ := hok (.int n) hrc
        (by unfold resolveGasLimit; rw [hgl]) (by rfl)
      exact ⟨t, _, ht, hg⟩
  · intro rc hrc1 hrc2
    unfold prepare_transaction finalizeTxn
    simp only [resolveGasLimit_not_auto_max, Bool.false_eq_true, if_false]
    rw [hresrc, hfeerc, hrc1]
    dsimp only
    rw [if_pos hrc2]

/-- Concrete provider environment for the C5 witness. -/
def provEnvW : ProviderEnv :=
  { chainId := 1, gasPrice := 10, priorityFee := 2, baseFee := 100,
    maxGas := 30000000, estimateGasCost := (fun _ => 21000),
    networkGasLimit := GasVal.str "auto", networkRequiredConfirmations := 2 }

/-- Witness transaction requesting the literal max gas limit. -/
def txnMax : Txn :=
  { chainId := 0, txType := .dynamic, gasPrice := none, maxFee := none,
    maxPriorityFee := none, gasLimit := .str "max", nonce := none,
    requiredConfirmations := none }

/-- Witness transaction with an unset gas limit on an auto-default
network. -/
def txnAuto : Txn :=
  { chainId := 0, txType := .dynamic, gasPrice := none, maxFee := none,
    maxPriorityFee := none, gasLimit := .unset, nonce := none,
    requiredConfirmations := some 0 }

/-- Witness transaction with a negative confirmation requirement. -/
def txnNeg : Txn :=
  { chainId := 0, txType := .static, gasPrice := some 5, maxFee := none,
    maxPriorityFee := none, gasLimit := .int 21000, nonce := none,
    requiredConfirmations := some (-1) }

/-- Witness for C5: the literal max resolves to the provider's max gas,
an unset gas limit on an auto network resolves to the estimate, and a
negative confirmation requirement raises the transaction error. -/
theorem prepare_transaction_spec_witness :
    (∃ t, prepare_transaction provEnvW txnMax = .ok t ∧
      t.gasLimit = .int provEnvW.maxGas) ∧
    (∃ t, prepare_transaction provEnvW txnAuto = .ok t ∧
      t.gasLimit =
        .int (provEnvW.estimateGasCost (withFees provEnvW (withChainId provEnvW txnAuto)))) ∧
    prepare_transaction provEnvW txnNeg =
      .error (.transactionError "'required_confirmations' must be a positive integer.") := by
  refine ⟨?_, ?_, ?_⟩
  · exact (prepare_transaction_spec provEnvW txnMax).1 (Or.inl rfl) rfl
  · exact (prepare_transaction_spec provEnvW txnAuto).2.1
      (Or.inr ⟨0, rfl, by decide⟩) (Or.inr ⟨rfl, Or.inl rfl⟩)
  · exact (prepare_transaction_spec provEnvW txnNeg).2.2.2 (-1) rfl (by decide)

end TransactionPreparer

section ConfirmationTracker

/-- The observable actions `await_confirmations` performs against the
provider and the operator: nonce polls, block polls, sleeps (with their
duration in seconds), the submission log line and progress updates. -/
inductive Effect where
  | getNonce
  | getBlock
  | sleep (secs : Nat)
  | logSubmitted
  | progressUpdate (confs : Int)
deriving Repr, DecidableEq

/-- The failures of the confirmation wait: the nonce-sync
`TransactionError` timeout, and the marker for exhausting the fuel that
models the unbounded active-wait loop. -/
inductive ConfError where
  | timeout
  | outOfFuel
deriving Repr, DecidableEq

/-- A receipt as `await_confirmations` reads it: whether
`raise_for_status` signals a failed status (the ethereum receipt raises a
`TransactionError` on a failing status, which the source catches to skip
waiting), the transaction nonce, the containing block number and the
required confirmation count. -/
structure Receipt where
  statusFailed : Bool
  nonce : Option Int
  blockNumber : Int
  requiredConfirmations : Int
deriving Repr, DecidableEq

/-- External collaborators of `await_confirmations`: the successive
results of `provider.get_nonce(sender)` (indexed by call number), the
successive `get_block("latest").number` results, and the network block
time. -/
structure ConfEnv where
  getNonce : Nat → Int
  latestBlockNumber : Nat → Option Int
  blockTime : Nat

/-- Embedding of `ReceiptAPI._confirmations_occurred`
(src/ape/api/transactions.py lines 212-219) at the k-th block poll: zero
when the latest block has no number, else latest minus the receipt's
block. -/
def confirmationsOccurred (env : ConfEnv) (r : Receipt) (k : Nat) : Int :=
  match env.latestBlockNumber k with
  | none => 0
  | some n => n - r.blockNumber

/-- The nonce-sync while-loop of `await_confirmations`
(src/ape/api/transactions.py lines 250-260): while the polled sender
nonce still equals the receipt's nonce, sleep one second, poll again and
count the iteration, raising the timeout `TransactionError` when the
20th iteration completes.  `fuel` is the remaining iteration budget
(`iterations_timeout - iteration`, 20 at entry); `idx` indexes the next
nonce poll; the result carries the next poll index and the effect log. -/
def nonceSyncGo (env : ConfEnv) (rnonce : Option Int) :
    Nat → Int → Nat → List Effect → (Except ConfError Nat) × List Effect
  | fuel, senderNonce, idx, acc =>
    if some senderNonce == rnonce then
      match fuel with
      | 0 => (.error .timeout, acc)
      | fuel' + 1 =>
        let acc' := acc ++ [Effect.sleep 1, Effect.getNonce]
        let senderNonce' := env.getNonce idx
        if fuel' == 0 then (.error .timeout, acc')
        else nonceSyncGo env rnonce fuel' senderNonce' (idx + 1) acc'
    else (.ok idx, acc)

/-- The bounded iteration count of the nonce-sync loop
(`iterations_timeout` in the source). -/
def iterationsTimeout : Nat := 20

/-- The unbounded active-wait loop of `await_confirmations`
(src/ape/api/transactions.py lines 280-289): while the confirmations
occurred are below the requirement, poll the latest block, report
progress, stop when the requirement is met exactly, else sleep half a
block time and repeat.  The fuel models the absence of any hard bound in
the source: running out yields the `outOfFuel` marker rather than a
result. -/
def activeWait (env : ConfEnv) (r : Receipt) :
    Nat → Int → Nat → List Effect → (Except ConfError Receipt) × List Effect
  | 0, _, _, acc => (.error .outOfFuel, acc)
  | fuel + 1, confs, blockIdx, acc =>
    if confs < r.requiredConfirmations then
      let confs' := confirmationsOccurred env r blockIdx
      let acc' := acc ++ [Effect.getBlock, Effect.progressUpdate confs']
      if confs' == r.requiredConfirmations then (.ok r, acc')
      else activeWait env r fuel confs' (blockIdx + 1)
        (acc' ++ [Effect.sleep (env.blockTime / 2)])
    else (.ok r, acc)

/-- Embedding of `ReceiptAPI.await_confirmations`
(src/ape/api/transactions.py lines 236-291): a failed status returns at
once; the nonce-sync loop runs with its 20-iteration budget; a zero
confirmation requirement returns right after it; already-satisfied
confirmations return after one block poll; otherwise the submission is
logged and the active wait runs. -/
def await_confirmations (env : ConfEnv) (r : Receipt) (fuel : Nat) :
    (Except ConfError Receipt) × List Effect :=
  if r.statusFailed then (.ok r, [])
  else
    match nonceSyncGo env r.nonce iterationsTimeout (env.getNonce 0) 1 [Effect.getNonce] with
    | (.error e, eff) => (.error e, eff)
    | (.ok _, eff) =>
      if r.requiredConfirmations == 0 then (.ok r, eff)
      else
        let c0 := confirmationsOccurred env r 0
        let eff1 := eff ++ [Effect.getBlock]
        if r.requiredConfirmations ≤ c0 then (.ok r, eff1)
        else activeWait env r fuel c0 1 (eff1 ++ [Effect.logSubmitted])

/-- Number of sleep effects in a log. -/
def sleepCount (l : List Effect) : Nat :=
  (l.filter (fun e => match e with | .sleep _ => true | _ => false)).length

/-- Sleep counts add over concatenated logs. -/
theorem sleepCount_append (a b : List Effect) :
    sleepCount (a ++ b) = sleepCount a + sleepCount b := by
  unfold sleepCount
  rw [List.filter_append, List.length_append]

/-- The nonce-sync loop adds at most `fuel` sleeps to the log. -/
theorem nonceSyncGo_sleep_bound (env : ConfEnv) (rnonce : Option Int) :
    ∀ (fuel : Nat) (s : Int) (idx : Nat) (acc : List Effect),
    sleepCount (nonceSyncGo env rnonce fuel s idx acc).2 ≤ sleepCount acc + fuel := by
  intro fuel
  induction fuel with
  | zero =>
    intro s idx acc
    unfold nonceSyncGo
    by_cases h : (some s == rnonce) = true
    · simp [h]
    · simp [h]
  | succ n ih =>
    intro s idx acc
    unfold nonceSyncGo
    by_cases h : (some s == rnonce) = true
    · rw [if_pos h]
      by_cases hn : (n == 0) = true
      · simp only [hn, if_true]
        rw [sleepCount_append]
        simp [sleepCount]
      · simp only [hn, Bool.false_eq_true, if_false]
        have := ih (env.getNonce idx) (idx + 1) (acc ++ [Effect.sleep 1, Effect.getNonce])
        rw [sleepCount_append] at this
        simp [sleepCount] at this ⊢
        omega
    · rw [if_neg h]
      simp

/-- When every poll keeps returning the receipt's nonce, the loop runs
its full budget of sleep-poll rounds and times out. -/
theorem nonceSyncGo_timeout (env : ConfEnv) (rnonce : Option Int) :
    ∀ (fuel : Nat) (s : Int) (idx : Nat) (acc : List Effect),
    0 < fuel →
    (some s == rnonce) = true →
    (∀ j : Nat, idx ≤ j → j + 1 < idx + fuel → (some (env.getNonce j) == rnonce) = true) →
    nonceSyncGo env rnonce fuel s idx acc =
      (.error .timeout,
        acc ++ (List.replicate fuel [Effect.sleep 1, Effect.getNonce]).flatten) := by
  intro fuel
  induction fuel with
  | zero => intro s idx acc h0; omega
  | succ n ih =>
    intro s idx acc h0 hs hall
    unfold nonceSyncGo
    rw [if_pos hs]
    match hn : n with
    | 0 => simp
    | m + 1 =>
      simp only [Nat.add_one_ne_zero, beq_iff_eq, if_false]
      rw [ih (env.getNonce idx) (idx + 1) (acc ++ [Effect.sleep 1, Effect.getNonce])
        (by omega)
        (hall idx (by omega) (by omega))
        (fun j hj1 hj2 => hall j (by omega) (by omega))]
      simp [List.replicate_succ]

/-- C6: `await_confirmations` returns immediately with no provider
interaction when the receipt's status already signals failure; returns
right after the nonce-sync phase when the confirmation requirement is
zero; and when the confirmations already occurred (latest block number
minus receipt block number) meet the requirement, returns after a single
block poll — in particular, when the first nonce poll already shows the
sender's nonce advanced, the whole call performs no sleep at all. -/
theorem await_confirmations_fast_paths (env : ConfEnv) (r : Receipt) (fuel : Nat) :
    (r.statusFailed = true → await_confirmations env r fuel = (.ok r, [])) ∧
    (r.statusFailed = false →
      ∀ (idx : Nat) (eff : List Effect),
      nonceSyncGo env r.nonce iterationsTimeout (env.getNonce 0) 1 [Effect.getNonce] =
        (.ok idx, eff) →
      (r.requiredConfirmations == 0) = true →
      await_confirmations env r fuel = (.ok r, eff)) ∧
    (r.statusFailed = false →
      ∀ (idx : Nat) (eff : List Effect),
      nonceSyncGo env r.nonce iterationsTimeout (env.getNonce 0) 1 [Effect.getNonce] =
        (.ok idx, eff) →
      (r.requiredConfirmations == 0) = false →
      r.requiredConfirmations ≤ confirmationsOccurred env r 0 →
      await_confirmations env r fuel = (.ok r, eff ++ [Effect.getBlock])) ∧
    (r.statusFailed = false →
      (some (env.getNonce 0) == r.nonce) = false →
      (r.requiredConfirmations == 0) = false →
      r.requiredConfirmations ≤ confirmationsOccurred env r 0 →
      await_confirmations env r fuel = (.ok r, [Effect.getNonce, Effect.getBlock])) := by
  refine ⟨?_, ?_, ?_, ?_⟩
  · intro hfail
    unfold await_confirmations
    rw [if_pos hfail]
  · intro hfail idx eff hsync hreq
    unfold await_confirmations
    rw [if_neg (by simp [hfail]), hsync]
    simp only [hreq, if_true]
  · intro hfail idx eff hsync hreq hsat
    unfold await_confirmations
    rw [if_neg (by simp [hfail]), hsync]
    simp only [hreq, Bool.false_eq_true, if_false]
    rw [if_pos hsat]
  · intro hfail hadv hreq hsat
    have hsync : nonceSyncGo env r.nonce iterationsTimeout (env.getNonce 0) 1
        [Effect.getNonce] = (.ok 1, [Effect.getNonce]) := by
      unfold nonceSyncGo
      rw [if_neg (by simp_all)]
    unfold await_confirmations
    rw [if_neg (by simp [hfail]), hsync]
    simp only [hreq, Bool.false_eq_true, if_false]
    rw [if_pos hsat]
    rfl

/-- Concrete confirmation environment for the C6 witness: the sender's
nonce already reads 5 on chain and the latest block is 12. -/
def confEnvW : ConfEnv :=
  { getNonce := (fun _ => 5), latestBlockNumber := (fun _ => some 12), blockTime := 10 }

/-- A receipt whose status already signals failure. -/
def rFailed : Receipt :=
  { statusFailed := true, nonce := some 4, blockNumber := 10, requiredConfirmations := 2 }

/-- A receipt with a zero confirmation requirement. -/
def rZero : Receipt :=
  { statusFailed := false, nonce := some 4, blockNumber := 10, requiredConfirmations := 0 }

/-- A receipt whose two required confirmations have already occurred at
block 12. -/
def rSat : Receipt :=
  { statusFailed := false, nonce := some 4, blockNumber := 10, requiredConfirmations := 2 }

/-- Witness for C6: the three fast paths at concrete receipts — no
effects for the failed receipt, only the nonce poll for the zero
requirement, and one nonce poll plus one block poll (no sleeps) for the
already-satisfied receipt. -/
theorem await_confirmations_fast_paths_witness :
    await_confirmations confEnvW rFailed 3 = (.ok rFailed, []) ∧
    await_confirmations confEnvW rZero 3 = (.ok rZero, [Effect.getNonce]) ∧
    await_confirmations confEnvW rSat 3 =
      (.ok rSat, [Effect.getNonce, Effect.getBlock]) := by
  refine ⟨?_, ?_, ?_⟩
  · exact (await_confirmations_fast_paths confEnvW rFailed 3).1 rfl
  · exact (await_confirmations_fast_paths confEnvW rZero 3).2.1 rfl 1 [Effect.getNonce]
      rfl (by decide)
  · exact (await_confirmations_fast_paths confEnvW rSat 3).2.2.2 rfl (by decide)
      (by decide) (by decide)

/-- C7: the nonce-sync phase is bounded — with its 20-iteration budget it
adds at most 20 sleeps to the log — and when every nonce poll up to the
budget still returns the receipt's nonce, `await_confirmations` fails
with the timeout `TransactionError` after exactly 20 one-second
sleep-poll rounds. -/
theorem nonce_sync_bounded_timeout (env : ConfEnv) (r : Receipt) :
    (∀ (s : Int) (idx : Nat) (acc : List Effect),
      sleepCount (nonceSyncGo env r.nonce iterationsTimeout s idx acc).2 ≤
        sleepCount acc + 20) ∧
    ((∀ k : Nat, k ≤ 20 → (some (env.getNonce k) == r.nonce) = true) →
      r.statusFailed = false →
      ∀ fuel : Nat, await_confirmations env r fuel =
        (.error .timeout,
          Effect.getNonce ::
            (List.replicate 20 [Effect.sleep 1, Effect.getNonce]).flatten)) := by
  constructor
  · intro s idx acc
    exact nonceSyncGo_sleep_bound env r.nonce iterationsTimeout s idx acc
  · intro hall hfail fuel
    have hsync := nonceSyncGo_timeout env r.nonce 20 (env.getNonce 0) 1 [Effect.getNonce]
      (by omega) (hall 0 (by omega)) (fun j hj1 hj2 => hall j (by omega))
    unfold await_confirmations
    rw [if_neg (by simp [hfail])]
    rw [show iterationsTimeout = 20 from rfl, hsync]
    simp

/-- Environment whose nonce polls never advance past the receipt's
nonce. -/
def stuckEnv : ConfEnv :=
  { getNonce := (fun _ => 4), latestBlockNumber := (fun _ => some 12), blockTime := 10 }

/-- The receipt whose nonce the stuck provider keeps reporting. -/
def rStuck : Receipt :=
  { statusFailed := false, nonce := some 4, blockNumber := 10, requiredConfirmations := 2 }

/-- Witness for C7: with a provider stuck at the receipt's nonce the call
times out with a `TransactionError` after twenty one-second sleeps, and
the sleep bound holds at the loop's entry configuration. -/
theorem nonce_sync_bounded_timeout_witness :
    await_confirmations stuckEnv rStuck 5 =
      (.error .timeout,
        Effect.getNonce ::
          (List.replicate 20 [Effect.sleep 1, Effect.getNonce]).flatten) ∧
    sleepCount (nonceSyncGo stuckEnv rStuck.nonce iterationsTimeout 4 1 [Effect.getNonce]).2 ≤
      sleepCount [Effect.getNonce] + 20 := by
  constructor
  · exact (nonce_sync_bounded_timeout stuckEnv rStuck).2 (by decide) rfl 5
  · exact (nonce_sync_bounded_timeout stuckEnv rStuck).1 4 1 [Effect.getNonce]

end ConfirmationTracker

end Ape
